import Mathlib

/-!
# ST7735 display driver: shallow embedding of `Adafruit_ST7735.c`

Every driver function is embedded as a pure function of the module's globals
(`State`) and of its arguments that returns the list of calls it makes, in
order.  Integer conventions follow the C source on a target with 32-bit `int`
(the STM32 build the file includes `hw_config.h` for): `int16_t`, `uint8_t`
and `uint16_t` operands are promoted to `int` and every store into a narrower
variable or parameter is an explicit wrap (`u8`, `i8`, `u16`, `i16`).  `int`
values are unbounded `Int` wherever no intermediate can leave the 32-bit range
on the inputs considered; the squares and their sum in `ST7735_fillCircle`,
which can, are wrapped to 32 bits with `i32`.
-/

namespace ST7735

/-! ## Machine integers -/

/-- Conversion of an `int` value to `uint8_t`. -/
def u8 (i : Int) : Nat := (i % 256).toNat

/-- Conversion of an `int` value to `uint16_t`. -/
def u16 (i : Int) : Nat := (i % 65536).toNat

/-- Conversion of an `int` value to `signed char` (two's complement wrap). -/
def i8 (i : Int) : Int := (i + 128) % 256 - 128

/-- Conversion of an `int` value to `int16_t` (two's complement wrap). -/
def i16 (i : Int) : Int := (i + 32768) % 65536 - 32768

/-- Result of an `int` operation on the 32-bit target: the exact value wrapped
to two's complement (what the target's arithmetic gives when a signed operation
overflows). -/
def i32 (i : Int) : Int := (i + 2147483648) % 4294967296 - 2147483648

/-! ## Header constants

`Adafruit_ST7735.h` is not part of the sources.  The values the driver only
passes through (opcodes, MADCTL bits, the alignment sentinels of `print`) are
parameters; the panel size and the orientation enumeration are fixed below. -/

/-- Constants of `Adafruit_ST7735.h` whose values the driver never inspects. -/
structure Header where
  ST7735_SWRESET : Nat
  ST7735_SLPOUT : Nat
  ST7735_NORON : Nat
  ST7735_INVOFF : Nat
  ST7735_INVON : Nat
  ST7735_DISPOFF : Nat
  ST7735_DISPON : Nat
  ST7735_CASET : Nat
  ST7735_RASET : Nat
  ST7735_RAMWR : Nat
  ST7735_COLMOD : Nat
  ST7735_MADCTL : Nat
  ST7735_FRMCTR1 : Nat
  ST7735_FRMCTR2 : Nat
  ST7735_FRMCTR3 : Nat
  ST7735_INVCTR : Nat
  ST7735_DISSET5 : Nat
  ST7735_PWCTR1 : Nat
  ST7735_PWCTR2 : Nat
  ST7735_PWCTR3 : Nat
  ST7735_PWCTR4 : Nat
  ST7735_PWCTR5 : Nat
  ST7735_VMCTR1 : Nat
  ST7735_PWCTR6 : Nat
  ST7735_GMCTRP1 : Nat
  ST7735_GMCTRN1 : Nat
  MADCTL_MY : Nat
  MADCTL_MX : Nat
  MADCTL_MV : Nat
  MADCTL_RGB : Nat
  INITR_GREENTAB : Nat
  INITR_BLACKTAB : Nat
  RIGHT : Int
  CENTER : Int
  deriving Repr

/-- Modelled from the spec: the macro `ST7735_TFTWIDTH` of the missing header
`Adafruit_ST7735.h`; the spec's scenarios name a 128x160 portrait surface. -/
def ST7735_TFTWIDTH : Nat := 128

/-- Modelled from the spec: the macro `ST7735_TFTHEIGHT` of the missing header
`Adafruit_ST7735.h`; the spec's scenarios name a 128x160 portrait surface. -/
def ST7735_TFTHEIGHT : Nat := 160

/-- Modelled from the spec: orientation constant of the missing header; the
spec's data model gives `orientation: enum{0..3}` in the order portrait,
landscape, portrait flipped, landscape flipped. -/
def PORTRAIT_NORMAL : Nat := 0

/-- Modelled from the spec: second orientation constant (spelt as in the source). -/
def LANDSAPE_NORMAL : Nat := 1

/-- Modelled from the spec: third orientation constant. -/
def PORTRAIT_FLIP : Nat := 2

/-- Modelled from the spec: fourth orientation constant (spelt as in the source). -/
def LANDSAPE_FLIP : Nat := 3

/-- A sample assignment of the pass-through constants, used for concrete
evaluations only (commonly published values of the controller's header). -/
def sampleHeader : Header :=
  { ST7735_SWRESET := 0x01, ST7735_SLPOUT := 0x11, ST7735_NORON := 0x13,
    ST7735_INVOFF := 0x20, ST7735_INVON := 0x21, ST7735_DISPOFF := 0x28,
    ST7735_DISPON := 0x29, ST7735_CASET := 0x2A, ST7735_RASET := 0x2B,
    ST7735_RAMWR := 0x2C, ST7735_COLMOD := 0x3A, ST7735_MADCTL := 0x36,
    ST7735_FRMCTR1 := 0xB1, ST7735_FRMCTR2 := 0xB2, ST7735_FRMCTR3 := 0xB3,
    ST7735_INVCTR := 0xB4, ST7735_DISSET5 := 0xB6, ST7735_PWCTR1 := 0xC0,
    ST7735_PWCTR2 := 0xC1, ST7735_PWCTR3 := 0xC2, ST7735_PWCTR4 := 0xC3,
    ST7735_PWCTR5 := 0xC4, ST7735_VMCTR1 := 0xC5, ST7735_PWCTR6 := 0xFC,
    ST7735_GMCTRP1 := 0xE0, ST7735_GMCTRN1 := 0xE1,
    MADCTL_MY := 0x80, MADCTL_MX := 0x40, MADCTL_MV := 0x20, MADCTL_RGB := 0x00,
    INITR_GREENTAB := 0x0, INITR_BLACKTAB := 0x2,
    RIGHT := 9999, CENTER := 9998 }

/-! ## Calls and state -/

/-- One call made by the driver.  The first eight constructors are the
transport collaborator (functions and pin macros defined outside the file);
`setAddrWindow` records a call of `ST7735_setAddrWindow` with the four
`uint8_t` arguments it receives; `rotateChar` records a call of the
floating-point routine `rotateChar`, which is not embedded. -/
inductive Op where
  | sendCmd (b : Nat)
  | sendData (b : Nat)
  | senddata (b : Nat)
  | delay_ms (ms : Nat)
  | LCD_DC1
  | LCD_CS0
  | LCD_RST0
  | LCD_RST1
  | setAddrWindow (x0 y0 x1 y1 : Nat)
  | rotateChar (c : Nat) (x y pos deg : Int)
  deriving DecidableEq, Repr

/-- The file-static `struct _font cfont`. -/
structure Font where
  font : List Nat
  x_size : Nat
  y_size : Nat
  offset : Nat
  numchars : Nat
  deriving DecidableEq, Repr

/-- The file-static variables of the driver. -/
structure State where
  _width : Nat
  _height : Nat
  colstart : Int
  rowstart : Int
  orientation : Nat
  cfont : Font
  _transparent : Nat
  _fg : Nat
  _bg : Nat
  deriving DecidableEq, Repr

/-- Initial values of the file-static variables (`cfont` is zero-initialised,
`ST7735_CYAN` is 0x07FF and `ST7735_BLACK` is 0 in the 5-6-5 format). -/
def initState : State :=
  { _width := ST7735_TFTWIDTH, _height := ST7735_TFTHEIGHT,
    colstart := 0, rowstart := 0, orientation := PORTRAIT_NORMAL,
    cfont := { font := [], x_size := 0, y_size := 0, offset := 0, numchars := 0 },
    _transparent := 1, _fg := 0x07FF, _bg := 0 }

/-! ## Colour packing -/

/-- Source `ST7735_Color565`: the expression is evaluated in `int` and the
result converted to the `uint16_t` return type. -/
def ST7735_Color565 (r g b : Nat) : Nat :=
  ((((r &&& 0xF8) <<< 8) ||| ((g &&& 0xFC) <<< 3)) ||| (b >>> 3)) % 65536

/-! ## Initialization tables -/

/-- Source macro `DELAY`. -/
def DELAY : Nat := 0x80

/-- Source table `Bcmd`. -/
def Bcmd (K : Header) : List Nat :=
  [ 18,
    K.ST7735_SWRESET, DELAY,
      50,
    K.ST7735_SLPOUT, DELAY,
      255,
    K.ST7735_COLMOD, 1 + DELAY,
      0x05,
      10,
    K.ST7735_FRMCTR1, 3 + DELAY,
      0x00,
      0x06,
      0x03,
      10,
    K.ST7735_MADCTL, 1,
      0x08,
    K.ST7735_DISSET5, 2,
      0x15,
      0x02,
    K.ST7735_INVCTR, 1,
      0x0,
    K.ST7735_PWCTR1, 2 + DELAY,
      0x02,
      0x70,
      10,
    K.ST7735_PWCTR2, 1,
      0x05,
    K.ST7735_PWCTR3, 2,
      0x01,
      0x02,
    K.ST7735_VMCTR1, 2 + DELAY,
      0x3C,
      0x38,
      10,
    K.ST7735_PWCTR6, 2,
      0x11, 0x15,
    K.ST7735_GMCTRP1, 16,
      0x09, 0x16, 0x09, 0x20,
      0x21, 0x1B, 0x13, 0x19,
      0x17, 0x15, 0x1E, 0x2B,
      0x04, 0x05, 0x02, 0x0E,
    K.ST7735_GMCTRN1, 16 + DELAY,
      0x0B, 0x14, 0x08, 0x1E,
      0x22, 0x1D, 0x18, 0x1E,
      0x1B, 0x1A, 0x24, 0x2B,
      0x06, 0x06, 0x02, 0x0F,
      10,
    K.ST7735_CASET, 4,
      0x00, 0x02,
      0x00, 0x81,
    K.ST7735_RASET, 4,
      0x00, 0x02,
      0x00, 0x81,
    K.ST7735_NORON, DELAY,
      10,
    K.ST7735_DISPON, DELAY,
      255 ]

/-- Source table `Rcmd1`. -/
def Rcmd1 (K : Header) : List Nat :=
  [ 15,
    K.ST7735_SWRESET, DELAY,
      150,
    K.ST7735_SLPOUT, DELAY,
      255,
    K.ST7735_FRMCTR1, 3,
      0x01, 0x2C, 0x2D,
    K.ST7735_FRMCTR2, 3,
      0x01, 0x2C, 0x2D,
    K.ST7735_FRMCTR3, 6,
      0x01, 0x2C, 0x2D,
      0x01, 0x2C, 0x2D,
    K.ST7735_INVCTR, 1,
      0x07,
    K.ST7735_PWCTR1, 3,
      0xA2,
      0x02,
      0x84,
    K.ST7735_PWCTR2, 1,
      0xC5,
    K.ST7735_PWCTR3, 2,
      0x0A,
      0x00,
    K.ST7735_PWCTR4, 2,
      0x8A,
      0x2A,
    K.ST7735_PWCTR5, 2,
      0x8A, 0xEE,
    K.ST7735_VMCTR1, 1,
      0x0E,
    K.ST7735_INVOFF, 0,
    K.ST7735_MADCTL, 1,
      0xC0,
    K.ST7735_COLMOD, 1 + DELAY,
      0x05,
      10 ]

/-- Source table `Rcmd2green`. -/
def Rcmd2green (K : Header) : List Nat :=
  [ 2,
    K.ST7735_CASET, 4,
      0x00, 0x02,
      0x00, 0x7F + 0x02,
    K.ST7735_RASET, 4,
      0x00, 0x01,
      0x00, 0x9F + 0x01 ]

/-- Source table `Rcmd2red`. -/
def Rcmd2red (K : Header) : List Nat :=
  [ 2,
    K.ST7735_CASET, 4,
      0x00, 0x00,
      0x00, 0x7F,
    K.ST7735_RASET, 4,
      0x00, 0x00,
      0x00, 0x9F ]

/-- Source table `Rcmd3`. -/
def Rcmd3 (K : Header) : List Nat :=
  [ 4,
    K.ST7735_GMCTRP1, 16,
      0x02, 0x1c, 0x07, 0x12,
      0x37, 0x32, 0x29, 0x2d,
      0x29, 0x25, 0x2B, 0x39,
      0x00, 0x01, 0x03, 0x10,
    K.ST7735_GMCTRN1, 16,
      0x03, 0x1d, 0x07, 0x06,
      0x2E, 0x2C, 0x29, 0x2D,
      0x2E, 0x2E, 0x37, 0x3F,
      0x00, 0x00, 0x02, 0x10,
    K.ST7735_NORON, DELAY,
      10,
    K.ST7735_DISPON, DELAY,
      100 ]

/-! ## Command sequencer -/

/-- Source `commandList`, the loop `while(numCommands--)` after the count byte
has been read.  The table is the list of bytes starting at `addr`; a read past
its end (undefined in C) gives `none`.  The result is the trace together with
the bytes left unread. -/
def commandListLoop : Nat → List Nat → Option (List Op × List Nat)
  | 0, tbl => some ([], tbl)
  | n + 1, tbl =>
    match tbl with
    | cmd :: na :: rest =>
      let ms := na &&& 0x80
      let numArgs := na &&& 0x7F
      if numArgs ≤ rest.length then
        let argOps := (rest.take numArgs).map Op.sendData
        let rest1 := rest.drop numArgs
        if ms ≠ 0 then
          match rest1 with
          | d :: rest2 =>
            (commandListLoop n rest2).map (fun r =>
              (Op.sendCmd cmd :: (argOps ++ Op.delay_ms (if d = 255 then 500 else d) :: r.1), r.2))
          | [] => none
        else
          (commandListLoop n rest1).map (fun r => (Op.sendCmd cmd :: (argOps ++ r.1), r.2))
      else none
    | _ => none

/-- Source `commandList`: read the count byte, then run the loop. -/
def commandList (addr : List Nat) : Option (List Op × List Nat) :=
  match addr with
  | numCommands :: rest => commandListLoop numCommands rest
  | [] => none

/-- Source `commonInit` for a non-null table: the reset sequence, then the
table; `none` when `commandList` reads past the table. -/
def commonInit (cmdList : List Nat) : Option (List Op) :=
  (commandList cmdList).map (fun r =>
    [Op.LCD_CS0, Op.LCD_RST1, Op.delay_ms 500, Op.LCD_RST0, Op.delay_ms 500,
     Op.LCD_RST1, Op.delay_ms 500] ++ r.1)

/-- Source `ST7735_initB`. -/
def ST7735_initB (K : Header) : Option (List Op) :=
  commonInit (Bcmd K)

/-- Source `ST7735_initR` (`uint8_t options`): the new globals and the trace. -/
def ST7735_initR (K : Header) (s : State) (options : Nat) : Option (State × List Op) :=
  (commonInit (Rcmd1 K)).bind (fun t1 =>
    ((if options = K.INITR_GREENTAB then
        (commandList (Rcmd2green K)).map (fun r => ({ s with colstart := 2, rowstart := 1 }, r.1))
      else
        (commandList (Rcmd2red K)).map (fun r => (s, r.1))) : Option (State × List Op)).bind
      (fun r2 =>
        (commandList (Rcmd3 K)).map (fun r3 =>
          (r2.1, t1 ++ r2.2 ++ r3.1 ++
            (if options = K.INITR_BLACKTAB then
              [Op.sendCmd K.ST7735_MADCTL, Op.sendData 0xC0]
             else [])))))

/-! ## Addressing window and pixel stream -/

/-- Source `ST7735_setAddrWindow`, its body: the transport calls made for the
`uint8_t` arguments `x0 y0 x1 y1`.  The sums with the `int` offsets are
computed in `int`; the transport takes a byte. -/
def ST7735_setAddrWindow (K : Header) (s : State) (x0 y0 x1 y1 : Nat) : List Op :=
  [ Op.sendCmd K.ST7735_CASET,
    Op.sendData 0x00,
    Op.sendData (u8 (x0 + s.colstart)),
    Op.sendData 0x00,
    Op.sendData (u8 (x1 + s.colstart)),
    Op.sendCmd K.ST7735_RASET,
    Op.sendData 0x00,
    Op.sendData (u8 (y0 + s.rowstart)),
    Op.sendData 0x00,
    Op.sendData (u8 (y1 + s.rowstart)),
    Op.sendCmd K.ST7735_RAMWR ]

/-- The transport-level trace of a call trace: every recorded call of
`ST7735_setAddrWindow` is replaced by the transport calls of its body. -/
def transport (K : Header) (s : State) (t : List Op) : List Op :=
  t.flatMap (fun o =>
    match o with
    | Op.setAddrWindow x0 y0 x1 y1 => ST7735_setAddrWindow K s x0 y0 x1 y1
    | o => [o])

/-- Source macro `putpix(c)`: high byte, then low byte. -/
def putpix (c : Nat) : List Op :=
  [Op.senddata (c >>> 8), Op.senddata (c &&& 0xFF)]

/-- Source `ST7735_pushColor`. -/
def ST7735_pushColor (color : Nat) : List Op :=
  Op.LCD_DC1 :: putpix color

/-- The loops `while (h--) putpix(color);` of the run primitives.  The counter
is an `int16_t` that is decremented with wrap-around until it reads zero, so
the body runs `h mod 2^16` times. -/
def streamWhile (h : Int) (color : Nat) : List Op :=
  (List.replicate (u16 h) (putpix color)).flatten

/-! ## Primitive rasterizer -/

/-- Source `ST7735_drawPixel` (`int16_t x, y`). -/
def ST7735_drawPixel (s : State) (x y : Int) (color : Nat) : List Op :=
  if x < 0 ∨ x ≥ s._width ∨ y < 0 ∨ y ≥ s._height then []
  else Op.setAddrWindow (u8 x) (u8 y) (u8 (x + 1)) (u8 (y + 1)) :: ST7735_pushColor color

/-- Source `ST7735_drawFastVLine` (`int16_t x, y, h`). -/
def ST7735_drawFastVLine (s : State) (x y h : Int) (color : Nat) : List Op :=
  if x ≥ s._width ∨ y ≥ s._height then []
  else
    let h1 := if y + h - 1 ≥ s._height then i16 (s._height - y) else h
    Op.setAddrWindow (u8 x) (u8 y) (u8 x) (u8 (y + h1 - 1)) :: Op.LCD_DC1 ::
      streamWhile h1 color

/-- Source `ST7735_drawFastHLine` (`int16_t x, y, w`). -/
def ST7735_drawFastHLine (s : State) (x y w : Int) (color : Nat) : List Op :=
  if x ≥ s._width ∨ y ≥ s._height then []
  else
    let w1 := if x + w - 1 ≥ s._width then i16 (s._width - x) else w
    Op.setAddrWindow (u8 x) (u8 y) (u8 (x + w1 - 1)) (u8 y) :: Op.LCD_DC1 ::
      streamWhile w1 color

/-- Source `ST7735_fillRect` (`int16_t x, y, w, h`).  The two `for` loops count
`y` from `h` down to 1 and `x` from `w` down to 1. -/
def ST7735_fillRect (s : State) (x y w h : Int) (color : Nat) : List Op :=
  if x ≥ s._width ∨ y ≥ s._height then []
  else
    let w1 := if x + w - 1 ≥ s._width then i16 (s._width - x) else w
    let h1 := if y + h - 1 ≥ s._height then i16 (s._height - y) else h
    Op.setAddrWindow (u8 x) (u8 y) (u8 (x + w1 - 1)) (u8 (y + h1 - 1)) :: Op.LCD_DC1 ::
      (List.replicate h1.toNat
        (List.replicate w1.toNat (putpix color)).flatten).flatten

/-- Source `ST7735_fillScreen`. -/
def ST7735_fillScreen (s : State) (color : Nat) : List Op :=
  ST7735_fillRect s 0 0 (i16 s._width) (i16 s._height) color

/-- Source `ST7735_drawFastLine`, the loop of the branch `mdx>=mdy`: `l`
iterations left, `x` the current `unsigned char` abscissa. -/
def lineLoopX (s : State) (x1 y1 mdx mdy : Nat) (dy sx : Int) (color : Nat) :
    Nat → Nat → List Op
  | 0, _ => []
  | l + 1, x =>
    let y :=
      if dy > 0 then u8 ((y1 : Int) + ((mdy : Int) * ((x : Int) - x1)).tdiv mdx)
      else u8 ((y1 : Int) - ((mdy : Int) * ((x : Int) - x1)).tdiv mdx)
    ST7735_drawPixel s x y color ++
      lineLoopX s x1 y1 mdx mdy dy sx color l (u8 ((x : Int) + sx))

/-- Source `ST7735_drawFastLine`, the loop of the branch `mdx<mdy`: `l`
iterations left, `y` the current `unsigned char` ordinate. -/
def lineLoopY (s : State) (x1 y1 mdx mdy : Nat) (dy sy : Int) (color : Nat) :
    Nat → Nat → List Op
  | 0, _ => []
  | l + 1, y =>
    let x :=
      if dy > 0 then u8 ((x1 : Int) + ((mdx : Int) * ((y : Int) - y1)).tdiv mdy)
      else u8 ((x1 : Int) + ((mdx : Int) * ((y1 : Int) - y)).tdiv mdy)
    ST7735_drawPixel s x y color ++
      lineLoopY s x1 y1 mdx mdy dy sy color l (u8 ((y : Int) + sy))

/-- Source `ST7735_drawFastLine` (`uint8_t x1, y1, x2, y2`; `dx, dy, sx, sy` are
`signed char`, `mdx, mdy, l, x, y` are `unsigned char`). -/
def ST7735_drawFastLine (s : State) (x1 y1 x2 y2 : Nat) (color : Nat) : List Op :=
  if x1 = x2 then ST7735_fillRect s x1 y1 x1 y2 color
  else if y1 = y2 then ST7735_fillRect s x1 y1 x2 y1 color
  else
    let dx := i8 ((x2 : Int) - x1)
    let dy := i8 ((y2 : Int) - y1)
    let mdx := if dx ≥ 0 then u8 dx else u8 ((x1 : Int) - x2)
    let sx : Int := if dx ≥ 0 then 1 else -1
    let mdy := if dy ≥ 0 then u8 dy else u8 ((y1 : Int) - y2)
    let sy : Int := if dy ≥ 0 then 1 else -1
    (if mdx ≥ mdy then lineLoopX s x1 y1 mdx mdy dy sx color mdx x1
     else lineLoopY s x1 y1 mdx mdy dy sy color mdy y1) ++
      ST7735_drawPixel s x2 y2 color

/-- Source `ST7735_drawRect` (`uint8_t x1, y1, x2, y2`). -/
def ST7735_drawRect (s : State) (x1 y1 x2 y2 : Nat) (color : Nat) : List Op :=
  ST7735_drawFastHLine s x1 y1 ((x2 : Int) - x1) color ++
  ST7735_drawFastVLine s x2 y1 ((y2 : Int) - y1) color ++
  ST7735_drawFastHLine s x1 y2 ((x2 : Int) - x1) color ++
  ST7735_drawFastVLine s x1 y1 ((y2 : Int) - y1) color

/-- One plot of `ST7735_drawCircle`: `ST7735_setAddrWindow(px, py, px, py)`
followed by `ST7735_pushColor(color)`, with `px, py` computed in `int`. -/
def circlePlot (px py : Int) (color : Nat) : List Op :=
  Op.setAddrWindow (u8 px) (u8 py) (u8 px) (u8 py) :: ST7735_pushColor color

/-- Source `ST7735_drawCircle`, the update of `(x1, y1, f, ddF_x, ddF_y)` made
at the top of one iteration of the loop. -/
def circleStep (x1 y1 f ddF_x ddF_y : Int) : Int × Int × Int × Int × Int :=
  let y1a := if f ≥ 0 then y1 - 1 else y1
  let ddF_ya := if f ≥ 0 then ddF_y + 2 else ddF_y
  let fa := if f ≥ 0 then f + ddF_ya else f
  let x1a := x1 + 1
  let ddF_xa := ddF_x + 2
  let fb := fa + ddF_xa
  (x1a, y1a, fb, ddF_xa, ddF_ya)

/-- Source `ST7735_drawCircle`, the loop `while(x1 < y1)`: update the state,
then plot the eight mirrored points in the order of the source. -/
def drawCircleLoop (x y : Int) (color : Nat) (x1 y1 f ddF_x ddF_y : Int) : List Op :=
  if x1 < y1 then
    let st := circleStep x1 y1 f ddF_x ddF_y
    circlePlot (x + st.1) (y + st.2.1) color ++
    circlePlot (x - st.1) (y + st.2.1) color ++
    circlePlot (x + st.1) (y - st.2.1) color ++
    circlePlot (x - st.1) (y - st.2.1) color ++
    circlePlot (x + st.2.1) (y + st.1) color ++
    circlePlot (x - st.2.1) (y + st.1) color ++
    circlePlot (x + st.2.1) (y - st.1) color ++
    circlePlot (x - st.2.1) (y - st.1) color ++
    drawCircleLoop x y color st.1 st.2.1 st.2.2.1 st.2.2.2.1 st.2.2.2.2
  else []
termination_by (y1 - x1).toNat
decreasing_by
  simp only [circleStep]
  split <;> omega

/-- Source `ST7735_drawCircle` (`int16_t x, y`, `int radius`). -/
def ST7735_drawCircle (x y radius : Int) (color : Nat) : List Op :=
  circlePlot x (y + radius) color ++
  circlePlot x (y - radius) color ++
  circlePlot (x + radius) y color ++
  circlePlot (x - radius) y color ++
  drawCircleLoop x y color 0 radius (1 - radius) 1 (-2 * radius)

/-- The `(x1, y1)` pairs generated by the loop of `ST7735_drawCircle`, in
order: the values the eight mirrored plots of each iteration are made from. -/
def circlePairs (x1 y1 f ddF_x ddF_y : Int) : List (Int × Int) :=
  if x1 < y1 then
    let st := circleStep x1 y1 f ddF_x ddF_y
    (st.1, st.2.1) :: circlePairs st.1 st.2.1 st.2.2.1 st.2.2.2.1 st.2.2.2.2
  else []
termination_by (y1 - x1).toNat
decreasing_by
  simp only [circleStep]
  split <;> omega

/-- Source `ST7735_fillCircle`, the inner loop `for(x1=-radius; x1<=0; x1++)`
for the row offset `y1`: `n` values of `x1` are left to try; the first one
inside the circle draws the two runs and leaves the loop (`break`).  The test
`x1*x1+y1*y1 <= radius*radius` is evaluated in 32-bit `int`, each operation
wrapped by `i32`.  The run arguments are converted to `int16_t`, which gives
the same value whether or not the `int` sums wrapped before. -/
def fillCircleRow (s : State) (x y radius : Int) (color : Nat) (y1 : Int) :
    Nat → Int → List Op
  | 0, _ => []
  | n + 1, x1 =>
    if i32 (i32 (x1 * x1) + i32 (y1 * y1)) ≤ i32 (radius * radius) then
      ST7735_drawFastHLine s (i16 (x + x1)) (i16 (y + y1)) (i16 (2 * (-x1))) color ++
      ST7735_drawFastHLine s (i16 (x + x1)) (i16 (y - y1)) (i16 (2 * (-x1))) color
    else fillCircleRow s x y radius color y1 n (x1 + 1)

/-- Source `ST7735_fillCircle` (`int16_t x, y`, `int radius`): the outer loop
runs over `y1 = -radius, ..., 0`, the inner one over `x1 = -radius, ..., 0`. -/
def ST7735_fillCircle (s : State) (x y radius : Int) (color : Nat) : List Op :=
  (List.range (radius + 1).toNat).flatMap (fun k =>
    fillCircleRow s x y radius color (-radius + (k : Int)) (radius + 1).toNat (-radius))

/-! ## Bitmap blitter -/

/-- Source `ST7735_drawBitmap` (`int x, y, sx, sy, scale`); `data` is the pixel
buffer, an element outside the list reads as 0.  A loop over `0 ≤ t < n` runs
`n.toNat` times; the loops `for (tx=sx-1; tx>=0; tx--)` visit the same indices
in decreasing order. -/
def ST7735_drawBitmap (s : State) (x y sx sy : Int) (data : List Nat) (scale : Int) : List Op :=
  if scale = 1 then
    if s.orientation = PORTRAIT_NORMAL ∨ s.orientation = PORTRAIT_FLIP then
      Op.setAddrWindow (u8 x) (u8 y) (u8 (x + sx - 1)) (u8 (y + sy - 1)) :: Op.LCD_DC1 ::
        (List.range (sx * sy).toNat).flatMap (fun tc => putpix (data.getD tc 0))
    else
      (List.range sy.toNat).flatMap (fun ty =>
        Op.setAddrWindow (u8 x) (u8 (y + ty)) (u8 (x + sx - 1)) (u8 (y + ty)) :: Op.LCD_DC1 ::
          (List.range sx.toNat).reverse.flatMap (fun tx =>
            putpix (data.getD (((ty : Int) * sx + tx).toNat) 0)))
  else
    if s.orientation = PORTRAIT_NORMAL ∨ s.orientation = PORTRAIT_FLIP then
      (List.range sy.toNat).flatMap (fun ty =>
        Op.setAddrWindow (u8 x) (u8 (y + ty * scale)) (u8 (x + (sx * scale - 1)))
            (u8 (y + ty * scale + scale)) ::
          (List.range scale.toNat).flatMap (fun _ =>
            (List.range sx.toNat).flatMap (fun tx =>
              (List.range scale.toNat).flatMap (fun _ =>
                ST7735_pushColor (data.getD (((ty : Int) * sx + tx).toNat) 0)))))
    else
      (List.range sy.toNat).flatMap (fun ty =>
        (List.range scale.toNat).flatMap (fun tsy =>
          Op.setAddrWindow (u8 x) (u8 (y + ty * scale + tsy)) (u8 (x + (sx * scale - 1)))
              (u8 (y + ty * scale + tsy)) ::
            (List.range sx.toNat).reverse.flatMap (fun tx =>
              (List.range scale.toNat).flatMap (fun _ =>
                ST7735_pushColor (data.getD (((ty : Int) * sx + tx).toNat) 0)))))

/-! ## Orientation -/

/-- Source `ST7735_setRotation` (`uint8_t m`): the new globals and the trace. -/
def ST7735_setRotation (K : Header) (s : State) (m : Nat) : State × List Op :=
  let rotation := m % 4
  if rotation = PORTRAIT_NORMAL then
    ({ s with _width := ST7735_TFTWIDTH, _height := ST7735_TFTHEIGHT, orientation := m },
      [Op.sendCmd K.ST7735_MADCTL,
       Op.sendData (K.MADCTL_MX ||| K.MADCTL_MY ||| K.MADCTL_RGB)])
  else if rotation = LANDSAPE_NORMAL then
    ({ s with _width := ST7735_TFTHEIGHT, _height := ST7735_TFTWIDTH, orientation := m },
      [Op.sendCmd K.ST7735_MADCTL,
       Op.sendData (K.MADCTL_MY ||| K.MADCTL_MV ||| K.MADCTL_RGB)])
  else if rotation = PORTRAIT_FLIP then
    ({ s with _width := ST7735_TFTWIDTH, _height := ST7735_TFTHEIGHT, orientation := m },
      [Op.sendCmd K.ST7735_MADCTL, Op.sendData K.MADCTL_RGB])
  else if rotation = LANDSAPE_FLIP then
    ({ s with _width := ST7735_TFTHEIGHT, _height := ST7735_TFTWIDTH, orientation := m },
      [Op.sendCmd K.ST7735_MADCTL,
       Op.sendData (K.MADCTL_MX ||| K.MADCTL_MV ||| K.MADCTL_RGB)])
  else (s, [Op.sendCmd K.ST7735_MADCTL])

/-! ## Text -/

/-- Source `ST7735_setFont`: the descriptor is read from the first four bytes
of the table (a byte outside the list reads as 0). -/
def ST7735_setFont (s : State) (font : List Nat) : State :=
  { s with cfont := { font := font, x_size := font.getD 0 0, y_size := font.getD 1 0,
                      offset := font.getD 2 0, numchars := font.getD 3 0 } }

/-- Source `printChar` (`uint8_t c`, `int x, y`).  `temp` is a `uint16_t`; a
glyph byte outside the font list reads as 0. -/
def printChar (s : State) (c : Nat) (x y : Int) : List Op :=
  let fz := if s.cfont.x_size < 8 then s.cfont.x_size else s.cfont.x_size / 8
  let temp : Nat := u16 (((c : Int) - s.cfont.offset) * ((fz : Int) * s.cfont.y_size) + 4)
  if s._transparent = 0 then
    Op.setAddrWindow (u8 x) (u8 y) (u8 (x + s.cfont.x_size - 1)) (u8 (y + s.cfont.y_size - 1)) ::
      (List.range (fz * s.cfont.y_size)).flatMap (fun j =>
        let ch := s.cfont.font.getD (u16 ((temp : Int) + j)) 0
        (List.range 8).flatMap (fun i =>
          if ch &&& (1 <<< (7 - i)) ≠ 0 then ST7735_pushColor s._fg
          else ST7735_pushColor s._bg))
  else
    (List.range s.cfont.y_size).flatMap (fun j =>
      (List.range fz).flatMap (fun zz =>
        let ch := s.cfont.font.getD (u16 ((temp : Int) + j * fz) + zz) 0
        (List.range 8).flatMap (fun i =>
          Op.setAddrWindow (u8 (x + i + zz * 8)) (u8 (y + j))
              (u8 (x + i + zz * 8 + 1)) (u8 (y + j + 1)) ::
            (if ch &&& (1 <<< (7 - i)) ≠ 0 then ST7735_pushColor s._fg else []))))

/-- Source `ST7735_print`, the loop over the characters: `i` is the index of
the next character, `st` the characters left. -/
def printLoop (s : State) (x y deg : Int) : Nat → List Nat → List Op
  | _, [] => []
  | i, c :: st =>
    (if deg = 0 then printChar s c (x + (i : Int) * s.cfont.x_size) y
     else [Op.rotateChar c x y i deg]) ++
      printLoop s x y deg (i + 1) st

/-- Source `ST7735_print` (`int x, y, deg`); `st` holds the bytes of the C string
before its terminating NUL, so `strlen(st)` is the length of the list. -/
def ST7735_print (K : Header) (s : State) (st : List Nat) (x y deg : Int) : List Op :=
  let stl : Int := st.length
  let xa := if x = K.RIGHT then ((s._width : Int) + 1) - stl * s.cfont.x_size else x
  let xb := if xa = K.CENTER then (((s._height : Int) + 1) - stl * s.cfont.x_size).tdiv 2 else xa
  printLoop s xb y deg 0 st

/-! ## Specification-side definitions -/

/-- A value of type `int16_t`. -/
def isInt16 (v : Int) : Prop := -32768 ≤ v ∧ v ≤ 32767

instance isInt16.decidable (v : Int) : Decidable (isInt16 v) :=
  inferInstanceAs (Decidable (-32768 ≤ v ∧ v ≤ 32767))

/-- Recogniser of recorded `ST7735_setAddrWindow` calls. -/
def Op.isWindow : Op → Bool
  | Op.setAddrWindow _ _ _ _ => true
  | _ => false

/-- Nearest integer to the square root of `n`: the `k` with
`(2k-1)^2 ≤ 4n < (2k+1)^2` (no tie can occur for an integer `n`). -/
def roundSqrt (n : Nat) : Nat := (Nat.sqrt (4 * n) + 1) / 2

/-- Squared distance of the point `(px, py)` from the centre `(cx, cy)`. -/
def dist2 (px py : Nat) (cx cy : Int) : Nat :=
  (((px : Int) - cx) ^ 2 + ((py : Int) - cy) ^ 2).toNat

/-- The offset `(dx, dy)` is one of the eight reflections of the pair `(a, b)`:
`(±a, ±b)` or `(±b, ±a)`. -/
def isReflection (a b dx dy : Int) : Prop :=
  ((dx = a ∨ dx = -a) ∧ (dy = b ∨ dy = -b)) ∨ ((dx = b ∨ dx = -b) ∧ (dy = a ∨ dy = -a))

/-- Loop invariant of `ST7735_drawCircle` for radius `r`. -/
def CircleInv (r x1 y1 f ddF_x ddF_y : Int) : Prop :=
  f = x1 * x1 + 2 * x1 + 1 + y1 * y1 - y1 - r * r ∧ ddF_x = 2 * x1 + 1 ∧ ddF_y = -2 * y1 ∧
  0 ≤ x1 ∧ y1 ≤ r ∧ -2 * y1 + 1 ≤ f ∧ (x1 < y1 → f ≤ 2 * x1 + 1)

/-- A font table with two 8x8 glyphs, for the codes 65 and 66. -/
def sampleFont : List Nat :=
  [8, 8, 65, 2,
   0x18, 0x24, 0x42, 0x7E, 0x42, 0x42, 0x42, 0x00,
   0x7C, 0x42, 0x42, 0x7C, 0x42, 0x42, 0x7C, 0x00]

/-- The initial portrait state with `sampleFont` selected and
`ST7735_setTransparent(0)` applied. -/
def cellState : State := { ST7735_setFont initState sampleFont with _transparent := 0 }

/-- One entry of a command table as the specification describes it: an opcode,
its argument bytes and an optional post-command delay byte. -/
structure Entry where
  opcode : Nat
  args : List Nat
  delay : Option Nat
  deriving DecidableEq, Repr

/-- Packed form of one entry: opcode, length byte (argument count in the low
seven bits, bit 0x80 set when a delay byte follows), arguments, delay byte. -/
def Entry.encode (e : Entry) : List Nat :=
  e.opcode :: (e.args.length + (if e.delay.isSome then 0x80 else 0)) ::
    (e.args ++ e.delay.toList)

/-- Packed table: the count byte followed by the packed entries. -/
def packTable (es : List Entry) : List Nat :=
  es.length :: es.flatMap Entry.encode

/-- What the specification says is issued for one entry: the opcode, each
argument as data, then the wait when a delay is declared (255 meaning 500 ms). -/
def Entry.emit (e : Entry) : List Op :=
  Op.sendCmd e.opcode :: (e.args.map Op.sendData ++
    match e.delay with
    | some d => [Op.delay_ms (if d = 255 then 500 else d)]
    | none => [])

/-- An entry that fits the packed format: bytes everywhere, at most 127 arguments. -/
def Entry.WF (e : Entry) : Prop :=
  e.opcode < 256 ∧ e.args.length < 128 ∧ (∀ a ∈ e.args, a < 256) ∧ (∀ d ∈ e.delay, d < 256)

/-- A well-formed table: the count fits the count byte and every entry is well formed. -/
def tableWF (es : List Entry) : Prop :=
  es.length < 256 ∧ ∀ e ∈ es, e.WF

/-- The recorded window call covers the pixel `(px, py)`. -/
def Op.covers (px py : Nat) : Op → Bool
  | Op.setAddrWindow x0 y0 x1 y1 => x0 ≤ px && px ≤ x1 && y0 ≤ py && py ≤ y1
  | _ => false

/-- The initial portrait state with `sampleFont` selected (transparent mode,
the initial value of `_transparent`). -/
def glyphState : State := ST7735_setFont initState sampleFont

/-- The initial state with a font of one 8x2 glyph whose bytes are all zero. -/
def blankFontState : State := ST7735_setFont initState [8, 2, 65, 1, 0x00, 0x00]

/-- The initial state with a font of one glyph 12 pixels wide and 2 high, after
`ST7735_setTransparent(0)`. -/
def wideFontState : State :=
  { ST7735_setFont initState [12, 2, 65, 1, 0xF0, 0x0F] with _transparent := 0 }

/-- First `x1`, scanning upward from `x1` over `n + 1` candidates, with
`x1^2 + y1^2 ≤ r^2`; the last candidate when no earlier one qualifies. -/
def firstXFrom (r y1 : Int) : Nat → Int → Int
  | 0, x1 => x1
  | n + 1, x1 => if x1 * x1 + y1 * y1 ≤ r * r then x1 else firstXFrom r y1 n (x1 + 1)

/-- First `x1` in `[-r, 0]`, scanning upward from `-r`, with `x1^2 + y1^2 ≤ r^2`. -/
def firstX (r y1 : Int) : Int := firstXFrom r y1 r.toNat (-r)

/-- The value `xs` is the least `x1` in `[-r, 0]` with `x1^2 + y1^2 ≤ r^2`. -/
def isLeastX (r y1 xs : Int) : Prop :=
  -r ≤ xs ∧ xs ≤ 0 ∧ xs * xs + y1 * y1 ≤ r * r ∧
  ∀ x1 : Int, -r ≤ x1 → x1 < xs → ¬ (x1 * x1 + y1 * y1 ≤ r * r)

/-- The two mirrored runs of `ST7735_fillCircle` for the row offset `y1` and the
first abscissa `xs`. -/
def rowRuns (s : State) (x y : Int) (color : Nat) (y1 xs : Int) : List Op :=
  ST7735_drawFastHLine s (i16 (x + xs)) (i16 (y + y1)) (i16 (2 * (-xs))) color ++
  ST7735_drawFastHLine s (i16 (x + xs)) (i16 (y - y1)) (i16 (2 * (-xs))) color

/-- Bytes per glyph row as `printChar` computes them (`fz`). -/
def fontFz (f : Font) : Nat := if f.x_size < 8 then f.x_size else f.x_size / 8

/-- Index of the first byte of the glyph of `c` in the font table (`temp`). -/
def glyphBase (f : Font) (c : Nat) : Nat :=
  u16 (((c : Int) - f.offset) * ((fontFz f : Int) * f.y_size) + 4)

/-- Bit `i` of the glyph byte `ch`, counted from the most significant bit. -/
def bitSet (ch i : Nat) : Bool := ch &&& (1 <<< (7 - i)) ≠ 0

/-- Byte `zz` of row `j` of the glyph of `c`, as the transparent branch of
`printChar` reads it. -/
def glyphByte (f : Font) (c j zz : Nat) : Nat :=
  f.font.getD (u16 ((glyphBase f c : Int) + j * fontFz f) + zz) 0

/-- Number of set bits of the glyph of `c`. -/
def glyphSetBits (f : Font) (c : Nat) : Nat :=
  ((List.range f.y_size).map (fun j =>
    ((List.range (fontFz f)).map (fun zz =>
      ((List.range 8).filter (fun i => bitSet (glyphByte f c j zz) i)).length)).sum)).sum

/-- The window `printChar` opens in transparent mode for bit `i` of byte `zz`
of row `j`: two pixels wide and two high, starting at the pixel of the bit. -/
def bitWindow (x y : Int) (j zz i : Nat) : Op :=
  Op.setAddrWindow (u8 (x + i + zz * 8)) (u8 (y + j)) (u8 (x + i + zz * 8 + 1)) (u8 (y + j + 1))

/-- Colour of the glyph pixel in column `col` of row `row` when `printChar`
fills the whole cell: foreground when bit `col % 8` of the glyph byte
`row * fz + col / 8` is set, background otherwise. -/
def cellColor (s : State) (c row col : Nat) : Nat :=
  if bitSet (s.cfont.font.getD
      (u16 ((glyphBase s.cfont c : Int) + ((row * fontFz s.cfont + col / 8 : Nat) : Int))) 0)
      (col % 8)
  then s._fg else s._bg

/-- Recogniser of `lcd7735_sendCmd` calls. -/
def Op.isCmd : Op → Bool
  | Op.sendCmd _ => true
  | _ => false

/-! ## Auxiliary lemmas -/

theorem r_channel (r : Nat) (h : r < 256) : (r &&& 0xF8) <<< 8 = 2 ^ 11 * (r / 8) := by
  interval_cases r <;> rfl

theorem g_channel (g : Nat) (h : g < 256) : (g &&& 0xFC) <<< 3 = 2 ^ 5 * (g / 4) := by
  interval_cases g <;> rfl

theorem mem_stream (o : Op) (n : Nat) (c : Nat)
    (h : o ∈ (List.replicate n (putpix c)).flatten) : o ∈ putpix c := by
  simp only [List.mem_flatten, List.mem_replicate] at h
  obtain ⟨l, ⟨_, rfl⟩, ho⟩ := h
  exact ho

theorem window_not_mem_putpix (x0 y0 x1 y1 c : Nat) :
    Op.setAddrWindow x0 y0 x1 y1 ∉ putpix c := by
  simp [putpix]

theorem flatten_replicate_replicate (p : List Op) (h w : Nat) :
    (List.replicate h (List.replicate w p).flatten).flatten
      = (List.replicate (w * h) p).flatten := by
  induction h with
  | zero => simp
  | succ n ih =>
    rw [List.replicate_succ, List.flatten_cons, ih, Nat.mul_succ, Nat.add_comm (w * n) w,
      List.replicate_add, List.flatten_append]

/-- Every orientation change leaves one of the two surface sizes. -/
theorem setRotation_dims (K : Header) (s : State) (m : Nat) :
    ((ST7735_setRotation K s m).1._width = 128 ∧ (ST7735_setRotation K s m).1._height = 160) ∨
    ((ST7735_setRotation K s m).1._width = 160 ∧ (ST7735_setRotation K s m).1._height = 128) := by
  have h4 : m % 4 = 0 ∨ m % 4 = 1 ∨ m % 4 = 2 ∨ m % 4 = 3 := by omega
  unfold ST7735_setRotation
  rcases h4 with h | h | h | h <;>
    simp [h, PORTRAIT_NORMAL, LANDSAPE_NORMAL, PORTRAIT_FLIP, LANDSAPE_FLIP,
      ST7735_TFTWIDTH, ST7735_TFTHEIGHT]

theorem roundSqrt_spec (n : Nat) :
    (2 * roundSqrt n - 1) ^ 2 ≤ 4 * n ∧ 4 * n < (2 * roundSqrt n + 1) ^ 2 := by
  unfold roundSqrt
  have h1 := Nat.sqrt_le' (4 * n)
  have h2 := Nat.lt_succ_sqrt' (4 * n)
  set m := Nat.sqrt (4 * n) with hm
  constructor
  · have : 2 * ((m + 1) / 2) - 1 ≤ m := by omega
    calc (2 * ((m + 1) / 2) - 1) ^ 2 ≤ m ^ 2 := Nat.pow_le_pow_left this 2
      _ ≤ 4 * n := h1
  · have : m + 1 ≤ 2 * ((m + 1) / 2) + 1 := by omega
    calc 4 * n < (m + 1) ^ 2 := h2
      _ ≤ (2 * ((m + 1) / 2) + 1) ^ 2 := Nat.pow_le_pow_left this 2

theorem roundSqrt_eq (n r : Nat) (h1 : r * r + 1 ≤ n + r) (h2 : n ≤ r * r + r) :
    roundSqrt n = r := by
  unfold roundSqrt
  have lo : 2 * r - 1 ≤ Nat.sqrt (4 * n) := by
    rw [Nat.le_sqrt]
    rcases Nat.eq_zero_or_pos r with rfl | hr
    · simp
    · obtain ⟨k, rfl⟩ : ∃ k, r = k + 1 := ⟨r - 1, by omega⟩
      have : 2 * (k + 1) - 1 = 2 * k + 1 := by omega
      rw [this]
      nlinarith
  have hi : Nat.sqrt (4 * n) < 2 * r + 1 := by
    rw [Nat.sqrt_lt]
    nlinarith
  omega

theorem circleInv_step (r x1 y1 f ddF_x ddF_y : Int)
    (hI : CircleInv r x1 y1 f ddF_x ddF_y) (hlt : x1 < y1) :
    let st := circleStep x1 y1 f ddF_x ddF_y
    CircleInv r st.1 st.2.1 st.2.2.1 st.2.2.2.1 st.2.2.2.2 ∧
    0 ≤ st.1 ∧ st.1 ≤ r ∧ 0 ≤ st.2.1 ∧ st.2.1 ≤ r ∧
    r * r + 1 ≤ st.1 * st.1 + st.2.1 * st.2.1 + r ∧
    st.1 * st.1 + st.2.1 * st.2.1 ≤ r * r + r := by
  obtain ⟨hf, hdx, hdy, hx0, hyr, hlo, hup⟩ := hI
  have hup1 := hup hlt
  simp only [circleStep, CircleInv]
  by_cases hc : f ≥ 0
  · simp only [if_pos hc]
    have e1 : (x1 + 1) * (x1 + 1) = x1 * x1 + 2 * x1 + 1 := by ring
    have e2 : (y1 - 1) * (y1 - 1) = y1 * y1 - 2 * y1 + 1 := by ring
    rw [e1, e2]
    subst hdx hdy
    refine ⟨⟨by omega, by omega, by omega, by omega, by omega, by omega, ?_⟩,
      by omega, by omega, by omega, by omega, by omega, by omega⟩
    intro h; omega
  · simp only [if_neg hc]
    have e1 : (x1 + 1) * (x1 + 1) = x1 * x1 + 2 * x1 + 1 := by ring
    rw [e1]
    subst hdx hdy
    refine ⟨⟨by omega, by omega, by omega, by omega, by omega, by omega, ?_⟩,
      by omega, by omega, by omega, by omega, by omega, by omega⟩
    intro h; omega

theorem circlePairs_bounds (r : Int) (x1 y1 f ddF_x ddF_y : Int)
    (hI : CircleInv r x1 y1 f ddF_x ddF_y) (ab : Int × Int)
    (hab : ab ∈ circlePairs x1 y1 f ddF_x ddF_y) :
    0 ≤ ab.1 ∧ ab.1 ≤ r ∧ 0 ≤ ab.2 ∧ ab.2 ≤ r ∧
    r * r + 1 ≤ ab.1 * ab.1 + ab.2 * ab.2 + r ∧ ab.1 * ab.1 + ab.2 * ab.2 ≤ r * r + r := by
  induction x1, y1, f, ddF_x, ddF_y using circlePairs.induct with
  | case1 x1 y1 f ddF_x ddF_y hlt st ih =>
    rw [circlePairs, if_pos hlt] at hab
    have hs := circleInv_step r x1 y1 f ddF_x ddF_y hI hlt
    simp only [List.mem_cons] at hab
    rcases hab with rfl | hab
    · exact hs.2
    · exact ih hs.1 hab
  | case2 x1 y1 f ddF_x ddF_y hlt =>
    rw [circlePairs, if_neg hlt] at hab
    simp at hab


theorem mem_circlePlot (px py : Int) (color : Nat) (a b c d : Nat)
    (h : Op.setAddrWindow a b c d ∈ circlePlot px py color) :
    a = u8 px ∧ b = u8 py ∧ c = a ∧ d = b := by
  simp [circlePlot, ST7735_pushColor, putpix] at h
  obtain ⟨rfl, rfl, rfl, rfl⟩ := h
  exact ⟨rfl, rfl, rfl, rfl⟩

theorem mem_drawCircleLoop (x y : Int) (color : Nat) (x1 y1 f ddF_x ddF_y : Int)
    (a b c d : Nat)
    (h : Op.setAddrWindow a b c d ∈ drawCircleLoop x y color x1 y1 f ddF_x ddF_y) :
    ∃ ab ∈ circlePairs x1 y1 f ddF_x ddF_y, ∃ ex ey : Int,
      isReflection ab.1 ab.2 ex ey ∧ a = u8 (x + ex) ∧ b = u8 (y + ey) ∧ c = a ∧ d = b := by
  induction x1, y1, f, ddF_x, ddF_y using drawCircleLoop.induct x y color with
  | case1 x1 y1 f ddF_x ddF_y hlt st ih =>
    rw [drawCircleLoop, if_pos hlt] at h
    rw [circlePairs, if_pos hlt]
    simp only [List.mem_append] at h
    have key : ∀ ex ey : Int, isReflection st.1 st.2.1 ex ey →
        Op.setAddrWindow a b c d ∈ circlePlot (x + ex) (y + ey) color →
        ∃ ab ∈ (st.1, st.2.1) :: circlePairs st.1 st.2.1 st.2.2.1 st.2.2.2.1 st.2.2.2.2,
          ∃ ex ey : Int,
          isReflection ab.1 ab.2 ex ey ∧ a = u8 (x + ex) ∧ b = u8 (y + ey) ∧ c = a ∧ d = b := by
      intro ex ey hr hm
      exact ⟨(st.1, st.2.1), List.mem_cons_self _ _, ex, ey, hr, mem_circlePlot _ _ _ _ _ _ _ hm⟩
    rcases h with (((((((h | h) | h) | h) | h) | h) | h) | h) | h
    · exact key st.1 st.2.1 (Or.inl ⟨Or.inl rfl, Or.inl rfl⟩) h
    · exact key (-st.1) st.2.1 (Or.inl ⟨Or.inr rfl, Or.inl rfl⟩) (by rwa [← sub_eq_add_neg])
    · exact key st.1 (-st.2.1) (Or.inl ⟨Or.inl rfl, Or.inr rfl⟩) (by rwa [← sub_eq_add_neg])
    · exact key (-st.1) (-st.2.1) (Or.inl ⟨Or.inr rfl, Or.inr rfl⟩)
        (by rwa [← sub_eq_add_neg, ← sub_eq_add_neg])
    · exact key st.2.1 st.1 (Or.inr ⟨Or.inl rfl, Or.inl rfl⟩) h
    · exact key (-st.2.1) st.1 (Or.inr ⟨Or.inr rfl, Or.inl rfl⟩) (by rwa [← sub_eq_add_neg])
    · exact key st.2.1 (-st.1) (Or.inr ⟨Or.inl rfl, Or.inr rfl⟩) (by rwa [← sub_eq_add_neg])
    · exact key (-st.2.1) (-st.1) (Or.inr ⟨Or.inr rfl, Or.inr rfl⟩)
        (by rwa [← sub_eq_add_neg, ← sub_eq_add_neg])
    · obtain ⟨ab, hab, rest⟩ := ih h
      exact ⟨ab, List.mem_cons_of_mem _ hab, rest⟩
  | case2 x1 y1 f ddF_x ddF_y hlt =>
    rw [drawCircleLoop, if_neg hlt] at h
    simp at h

theorem circleInv_init (r : Int) (hr : 0 ≤ r) : CircleInv r 0 r (1 - r) 1 (-2 * r) := by
  refine ⟨by ring, by ring, by ring, le_refl _, le_refl _, by omega, ?_⟩
  intro _; omega

/-- A line that is neither vertical nor horizontal ends with the explicit plot
of its terminal endpoint. -/
theorem drawFastLine_sloped_last (s : State) (x1 y1 x2 y2 color : Nat)
    (hx : x1 ≠ x2) (hy : y1 ≠ y2) :
    ∃ pre, ST7735_drawFastLine s x1 y1 x2 y2 color = pre ++ ST7735_drawPixel s x2 y2 color := by
  unfold ST7735_drawFastLine
  rw [if_neg hx, if_neg hy]
  exact ⟨_, rfl⟩

theorem len_byte_plain (k : Nat) (h : k < 128) : k &&& 0x7F = k ∧ k &&& 0x80 = 0 := by
  interval_cases k <;> exact ⟨rfl, rfl⟩

theorem len_byte_delay (k : Nat) (h : k < 128) :
    (k + 0x80) &&& 0x7F = k ∧ (k + 0x80) &&& 0x80 ≠ 0 := by
  interval_cases k <;> exact ⟨rfl, by decide⟩

theorem commandListLoop_pack (es : List Entry) (hwf : ∀ e ∈ es, e.WF) (tail : List Nat) :
    commandListLoop es.length (es.flatMap Entry.encode ++ tail)
      = some (es.flatMap Entry.emit, tail) := by
  induction es with
  | nil => rfl
  | cons e es ih =>
    have he := hwf e (List.mem_cons_self _ _)
    have ih1 := ih (fun e1 h1 => hwf e1 (List.mem_cons_of_mem _ h1))
    obtain ⟨-, hlen, -, -⟩ := he
    rcases e with ⟨op, args, _ | d⟩
    · have hb := len_byte_plain args.length hlen
      simp only [List.flatMap_cons, Entry.encode, Entry.emit, List.length_cons, Option.isSome_none,
        Bool.false_eq_true, if_false, Nat.add_zero, Option.toList_none, List.append_nil,
        List.cons_append, List.append_assoc]
      rw [commandListLoop]
      simp only [hb.1, hb.2, List.length_append, Nat.le_add_right, if_true, ne_eq,
        not_true_eq_false, if_false, List.take_left', List.drop_left', ih1, Option.map_some']
    · have hb := len_byte_delay args.length hlen
      simp only [List.flatMap_cons, Entry.encode, Entry.emit, List.length_cons, Option.isSome_some,
        if_true, Option.toList_some, List.cons_append, List.append_assoc, List.singleton_append]
      rw [commandListLoop]
      simp only [hb.1, hb.2, List.length_append, Nat.le_add_right, if_true, ne_eq,
        not_false_eq_true, List.take_left', List.drop_left', ih1, Option.map_some',
        List.nil_append]

/-! ## Claims -/

/-- C1: for 8-bit channels `ST7735_Color565` returns exactly
`((r & 0xF8) << 8) | ((g & 0xFC) << 3) | (b >> 3)`, a 16-bit value; this is the
truncated 5/6/5 packing `2048*(r/8) + 32*(g/4) + b/8`, with no rounding. -/
theorem Color565_truncates (r g b : Nat) (hr : r < 256) (hg : g < 256) (hb : b < 256) :
    ST7735_Color565 r g b = (((r &&& 0xF8) <<< 8) ||| ((g &&& 0xFC) <<< 3)) ||| (b >>> 3)
    ∧ ST7735_Color565 r g b = 2048 * (r / 8) + 32 * (g / 4) + b / 8
    ∧ ST7735_Color565 r g b < 65536 := by
  have e1 := r_channel r hr
  have e2 := g_channel g hg
  have hb3 : b >>> 3 = b / 8 := by rw [Nat.shiftRight_eq_div_pow]
  have hb5 : b / 8 < 2 ^ 5 := by omega
  have o1 : 2 ^ 11 * (r / 8) ||| 2 ^ 5 * (g / 4) = 2 ^ 11 * (r / 8) + 2 ^ 5 * (g / 4) :=
    (Nat.mul_add_lt_is_or (by omega) (r / 8)).symm
  have o2 : (2 ^ 11 * (r / 8) + 2 ^ 5 * (g / 4)) ||| b / 8
      = 2 ^ 11 * (r / 8) + 2 ^ 5 * (g / 4) + b / 8 := by
    have : 2 ^ 11 * (r / 8) + 2 ^ 5 * (g / 4) = 2 ^ 5 * (64 * (r / 8) + g / 4) := by ring
    rw [this]
    exact (Nat.mul_add_lt_is_or hb5 _).symm
  have hv : (((r &&& 0xF8) <<< 8) ||| ((g &&& 0xFC) <<< 3)) ||| (b >>> 3)
      = 2048 * (r / 8) + 32 * (g / 4) + b / 8 := by
    rw [e1, e2, hb3, o1, o2]; norm_num
  unfold ST7735_Color565
  rw [hv]
  refine ⟨?_, ?_, ?_⟩ <;> omega

/-- Witness of C1 at `(r, g, b) = (255, 130, 7)`. -/
theorem Color565_truncates_witness :
    (255 < 256 ∧ 130 < 256 ∧ 7 < 256) ∧
    (ST7735_Color565 255 130 7
        = (((255 &&& 0xF8) <<< 8) ||| ((130 &&& 0xFC) <<< 3)) ||| (7 >>> 3)
    ∧ ST7735_Color565 255 130 7 = 2048 * (255 / 8) + 32 * (130 / 4) + 7 / 8
    ∧ ST7735_Color565 255 130 7 < 65536) :=
  ⟨by decide, Color565_truncates 255 130 7 (by decide) (by decide) (by decide)⟩

/-- C2: for every mode `m`, `ST7735_setRotation(m)` and `ST7735_setRotation(m+4)`
(the sum taken in `uint8_t`) emit the same trace, hence the same MADCTL byte,
and leave the same `_width` and `_height`. -/
theorem setRotation_period_four (K : Header) (s : State) (m : Nat) :
    (ST7735_setRotation K s ((m + 4) % 256)).2 = (ST7735_setRotation K s m).2
    ∧ (ST7735_setRotation K s ((m + 4) % 256)).1._width = (ST7735_setRotation K s m).1._width
    ∧ (ST7735_setRotation K s ((m + 4) % 256)).1._height
        = (ST7735_setRotation K s m).1._height := by
  have hm : (m + 4) % 256 % 4 = m % 4 := by omega
  unfold ST7735_setRotation
  simp only [hm]
  refine ⟨?_, ?_, ?_⟩ <;> (repeat' split) <;> simp_all

/-- C3, counterexample: on the initial 128x160 surface `ST7735_fillRect(0,0,0,0,c)`
calls `ST7735_setAddrWindow(0, 0, 255, 255)`, whose `x1` and `y1` are not below
the width 128 and the height 160. -/
theorem fillRect_zero_size_wraps :
    Op.setAddrWindow 0 0 255 255 ∈ ST7735_fillRect initState 0 0 0 0 0xF800
    ∧ ¬ ((255 : Nat) < initState._width) ∧ ¬ ((255 : Nat) < initState._height) := by
  decide

/-- C3, amended: for 16-bit signed `x, y, w, h` with `x + w ≥ 1` and `y + h ≥ 1`
on a surface of positive width and height, every window `ST7735_fillRect`
issues has `x1 < _width` and `y1 < _height`. -/
theorem fillRect_window_clipped (s : State) (x y w h : Int) (color : Nat)
    (hx : isInt16 x) (hy : isInt16 y) (hw : isInt16 w) (hh : isInt16 h)
    (hW : 0 < s._width) (hH : 0 < s._height) (hxw : 1 ≤ x + w) (hyh : 1 ≤ y + h)
    (x0 y0 x1 y1 : Nat)
    (hmem : Op.setAddrWindow x0 y0 x1 y1 ∈ ST7735_fillRect s x y w h color) :
    x1 < s._width ∧ y1 < s._height := by
  unfold isInt16 at hx hy hw hh
  unfold ST7735_fillRect at hmem
  split at hmem
  · simp at hmem
  · rename_i hg
    simp only [List.mem_cons, Op.setAddrWindow.injEq, reduceCtorEq, false_or] at hmem
    rcases hmem with ⟨-, -, rfl, rfl⟩ | hmem
    · unfold u8 i16
      constructor
      · split <;> omega
      · split <;> omega
    · obtain ⟨l, hl, hm⟩ := List.mem_flatten.1 hmem
      rw [List.mem_replicate] at hl
      rw [hl.2] at hm
      exact absurd (mem_stream _ _ _ hm) (window_not_mem_putpix _ _ _ _ _)

/-- Witness of C3 amended: `ST7735_fillRect(120, 150, 20, 20, c)` on the initial
surface is clipped to the window `(120, 150, 127, 159)`. -/
theorem fillRect_window_clipped_witness :
    (isInt16 120 ∧ isInt16 150 ∧ isInt16 20 ∧ isInt16 20 ∧
      0 < initState._width ∧ 0 < initState._height ∧ (1 : Int) ≤ 120 + 20 ∧ (1 : Int) ≤ 150 + 20 ∧
      Op.setAddrWindow 120 150 127 159 ∈ ST7735_fillRect initState 120 150 20 20 0xF800) ∧
    ((127 : Nat) < initState._width ∧ (159 : Nat) < initState._height) :=
  have hm : Op.setAddrWindow 120 150 127 159 ∈ ST7735_fillRect initState 120 150 20 20 0xF800 := by
    decide
  ⟨⟨by decide, by decide, by decide, by decide, by decide, by decide, by decide, by decide, hm⟩,
    fillRect_window_clipped initState 120 150 20 20 0xF800 (by decide) (by decide) (by decide)
      (by decide) (by decide) (by decide) (by decide) (by decide) 120 150 127 159 hm⟩

/-- C4: for a pixel off the surface (`x < 0`, `x ≥ _width`, `y < 0` or
`y ≥ _height`) `ST7735_drawPixel` makes no call at all, so its transport trace
is empty; the function only reads the globals, which the embedding passes
read-only. -/
theorem drawPixel_off_surface (K : Header) (s : State) (x y : Int) (color : Nat)
    (h : x < 0 ∨ x ≥ s._width ∨ y < 0 ∨ y ≥ s._height) :
    ST7735_drawPixel s x y color = [] ∧ transport K s (ST7735_drawPixel s x y color) = [] := by
  have e : ST7735_drawPixel s x y color = [] := by
    unfold ST7735_drawPixel
    rw [if_pos h]
  rw [e]
  exact ⟨rfl, rfl⟩

/-- Witness of C4 at the pixel `(128, 0)` of the initial 128x160 surface. -/
theorem drawPixel_off_surface_witness :
    ((128 : Int) < 0 ∨ (128 : Int) ≥ initState._width ∨ (0 : Int) < 0
      ∨ (0 : Int) ≥ initState._height) ∧
    (ST7735_drawPixel initState 128 0 0xF800 = [] ∧
      transport sampleHeader initState (ST7735_drawPixel initState 128 0 0xF800) = []) :=
  ⟨by decide, drawPixel_off_surface sampleHeader initState 128 0 0xF800 (by decide)⟩

/-- C5, the code at the failing input: the vertical line from `(5, 0)` to
`(5, 10)` is drawn as `ST7735_fillRect(5, 0, 5, 10, c)`, a block five columns
wide and ten rows high; its only window is `(5, 0, 9, 9)`, which does not reach
row 10, so the terminal endpoint `(5, 10)` is not painted. -/
theorem drawFastLine_vertical_misses_endpoint :
    ST7735_drawFastLine initState 5 0 5 10 0xF800
      = Op.setAddrWindow 5 0 9 9 :: Op.LCD_DC1 :: (List.replicate 50 (putpix 0xF800)).flatten
    ∧ ¬ ((10 : Nat) ≤ 9) := by
  decide

/-- C6, counterexample: the circle of radius 5 centred at `(0, 0)` opens the
window `(251, 0)`, the wrapped image of `(-5, 0)`, whose rounded distance from
the centre is 251, not within 1 of 5. -/
theorem drawCircle_wraps :
    Op.setAddrWindow 251 0 251 0 ∈ ST7735_drawCircle 0 0 5 0xF800
    ∧ ¬ (roundSqrt (dist2 251 0 0 0) ≤ 5 + 1) := by
  constructor
  · unfold ST7735_drawCircle
    refine List.mem_append_left _ (List.mem_append_right _ ?_)
    have e : (u8 (0 - 5) : Nat) = 251 := by decide
    have e0 : (u8 0 : Nat) = 0 := by decide
    unfold circlePlot
    rw [e, e0]
    exact List.mem_cons_self _ _
  · have d : dist2 251 0 0 0 = 63001 := by decide
    have : roundSqrt (dist2 251 0 0 0) = 251 := by
      rw [d]
      exact roundSqrt_eq 63001 251 (by decide) (by decide)
    omega

/-- C6, amended: when the circle fits the 8-bit coordinate range
(`0 ≤ x - r`, `x + r ≤ 255`, `0 ≤ y - r`, `y + r ≤ 255`), every window
`ST7735_drawCircle` opens is a single point `(px, py)` that is one of the eight
reflections of a generated pair or of the axis pair `(0, r)`, and the rounded
distance of `(px, py)` from the centre differs from `r` by at most 1. -/
theorem drawCircle_points (x y r : Int) (color : Nat)
    (hr : 0 ≤ r) (hx0 : 0 ≤ x - r) (hx1 : x + r ≤ 255) (hy0 : 0 ≤ y - r) (hy1 : y + r ≤ 255)
    (px py qx qy : Nat)
    (hmem : Op.setAddrWindow px py qx qy ∈ ST7735_drawCircle x y r color) :
    qx = px ∧ qy = py ∧
    (∃ ab ∈ (0, r) :: circlePairs 0 r (1 - r) 1 (-2 * r),
      isReflection ab.1 ab.2 ((px : Int) - x) ((py : Int) - y)) ∧
    roundSqrt (dist2 px py x y) ≤ r.toNat + 1 ∧ r.toNat ≤ roundSqrt (dist2 px py x y) + 1 := by
  -- every window comes from a pair `ab` and a reflection `(ex, ey)` of it
  have src : ∃ ab ∈ (0, r) :: circlePairs 0 r (1 - r) 1 (-2 * r), ∃ ex ey : Int,
      isReflection ab.1 ab.2 ex ey ∧ px = u8 (x + ex) ∧ py = u8 (y + ey) ∧ qx = px ∧ qy = py := by
    unfold ST7735_drawCircle at hmem
    simp only [List.mem_append] at hmem
    have axis : ∀ ex ey : Int, isReflection 0 r ex ey →
        Op.setAddrWindow px py qx qy ∈ circlePlot (x + ex) (y + ey) color →
        ∃ ab ∈ (0, r) :: circlePairs 0 r (1 - r) 1 (-2 * r), ∃ ex ey : Int,
          isReflection ab.1 ab.2 ex ey ∧ px = u8 (x + ex) ∧ py = u8 (y + ey) ∧
            qx = px ∧ qy = py := by
      intro ex ey hrf hm
      exact ⟨(0, r), List.mem_cons_self _ _, ex, ey, hrf, mem_circlePlot _ _ _ _ _ _ _ hm⟩
    rcases hmem with (((h | h) | h) | h) | h
    · exact axis 0 r (Or.inl ⟨Or.inl rfl, Or.inl rfl⟩) (by simpa using h)
    · exact axis 0 (-r) (Or.inl ⟨Or.inl rfl, Or.inr rfl⟩) (by simpa [← sub_eq_add_neg] using h)
    · exact axis r 0 (Or.inr ⟨Or.inl rfl, Or.inl rfl⟩) (by simpa using h)
    · exact axis (-r) 0 (Or.inr ⟨Or.inr rfl, Or.inl rfl⟩) (by simpa [← sub_eq_add_neg] using h)
    · obtain ⟨ab, hab, rest⟩ := mem_drawCircleLoop x y color 0 r (1 - r) 1 (-2 * r) _ _ _ _ h
      exact ⟨ab, List.mem_cons_of_mem _ hab, rest⟩
  obtain ⟨ab, hab, ex, ey, hrf, hpx, hpy, hqx, hqy⟩ := src
  -- bounds on the pair
  have hb : 0 ≤ ab.1 ∧ ab.1 ≤ r ∧ 0 ≤ ab.2 ∧ ab.2 ≤ r ∧
      r * r + 1 ≤ ab.1 * ab.1 + ab.2 * ab.2 + r + (if r = 0 then 1 else 0) ∧
      ab.1 * ab.1 + ab.2 * ab.2 ≤ r * r + r := by
    rcases List.mem_cons.1 hab with rfl | hab
    · simp only
      refine ⟨le_refl _, hr, hr, le_refl _, ?_, by omega⟩
      split <;> omega
    · have := circlePairs_bounds r 0 r (1 - r) 1 (-2 * r) (circleInv_init r hr) ab hab
      obtain ⟨h1, h2, h3, h4, h5, h6⟩ := this
      refine ⟨h1, h2, h3, h4, ?_, h6⟩
      split <;> omega
  obtain ⟨ha0, har, hb0, hbr, hlo, hhi⟩ := hb
  have hex : -r ≤ ex ∧ ex ≤ r ∧ -r ≤ ey ∧ ey ≤ r := by
    rcases hrf with ⟨h1 | h1, h2 | h2⟩ | ⟨h1 | h1, h2 | h2⟩ <;> omega
  have hsq : ex * ex + ey * ey = ab.1 * ab.1 + ab.2 * ab.2 := by
    rcases hrf with ⟨h1 | h1, h2 | h2⟩ | ⟨h1 | h1, h2 | h2⟩ <;> subst h1 h2 <;> ring
  have epx : (px : Int) - x = ex := by rw [hpx]; unfold u8; omega
  have epy : (py : Int) - y = ey := by rw [hpy]; unfold u8; omega
  refine ⟨hqx, hqy, ⟨ab, hab, by rw [epx, epy]; exact hrf⟩, ?_⟩
  have hd : ((dist2 px py x y : Nat) : Int) = ex * ex + ey * ey := by
    unfold dist2
    rw [epx, epy, Int.toNat_of_nonneg (by positivity)]
    ring
  by_cases hr0 : r = 0
  · subst hr0
    have : dist2 px py x y = 0 := by
      have : ((dist2 px py x y : Nat) : Int) = 0 := by rw [hd, hsq]; omega
      exact_mod_cast this
    rw [this]
    decide
  · rw [if_neg hr0] at hlo
    have : roundSqrt (dist2 px py x y) = r.toNat := by
      apply roundSqrt_eq
      · have : ((r.toNat : Nat) : Int) = r := Int.toNat_of_nonneg hr
        zify
        rw [this, hd, hsq]; omega
      · have : ((r.toNat : Nat) : Int) = r := Int.toNat_of_nonneg hr
        zify
        rw [this, hd, hsq]; omega
    omega

/-- Witness of C6 amended: the axis point `(13, 10)` of the circle of radius 3
centred at `(10, 10)`. -/
theorem drawCircle_points_witness :
    Op.setAddrWindow 13 10 13 10 ∈ ST7735_drawCircle 10 10 3 7 ∧
    ((13 : Nat) = 13 ∧ (10 : Nat) = 10 ∧
    (∃ ab ∈ (0, 3) :: circlePairs 0 3 (1 - 3) 1 (-2 * 3),
      isReflection ab.1 ab.2 (((13 : Nat) : Int) - 10) (((10 : Nat) : Int) - 10)) ∧
    roundSqrt (dist2 13 10 10 10) ≤ (3 : Int).toNat + 1 ∧
    (3 : Int).toNat ≤ roundSqrt (dist2 13 10 10 10) + 1) := by
  have hm : Op.setAddrWindow 13 10 13 10 ∈ ST7735_drawCircle 10 10 3 7 := by
    unfold ST7735_drawCircle
    refine List.mem_append_left _ (List.mem_append_left _ (List.mem_append_right _ ?_))
    have e : (u8 (10 + 3) : Nat) = 13 := by decide
    have e0 : (u8 10 : Nat) = 10 := by decide
    unfold circlePlot
    rw [e, e0]
    exact List.mem_cons_self _ _
  exact ⟨hm, drawCircle_points 10 10 3 7 (by decide) (by decide) (by decide) (by decide)
    (by decide) 13 10 13 10 hm⟩

/-- C7: for a rectangle that fits the surface (`w, h ≥ 1`, `x + w ≤ _width`,
`y + h ≤ _height`, on a surface no larger than the 8-bit coordinate range, as
both orientations are) `ST7735_fillRect` issues exactly one
`ST7735_setAddrWindow(x, y, x+w-1, y+h-1)`, enters data mode and streams exactly
`w*h` colours, each as high byte then low byte. -/
theorem fillRect_fits (s : State) (x y w h color : Nat)
    (hw : 1 ≤ w) (hh : 1 ≤ h) (hxw : x + w ≤ s._width) (hyh : y + h ≤ s._height)
    (hW : s._width ≤ 256) (hH : s._height ≤ 256) :
    ST7735_fillRect s x y w h color
      = Op.setAddrWindow x y (x + w - 1) (y + h - 1) :: Op.LCD_DC1 ::
          (List.replicate (w * h)
            [Op.senddata (color >>> 8), Op.senddata (color &&& 0xFF)]).flatten := by
  unfold ST7735_fillRect
  have hg : ¬ ((x : Int) ≥ s._width ∨ (y : Int) ≥ s._height) := by omega
  rw [if_neg hg]
  have c1 : ¬ ((x : Int) + w - 1 ≥ s._width) := by omega
  have c2 : ¬ ((y : Int) + h - 1 ≥ s._height) := by omega
  simp only [if_neg c1, if_neg c2, Int.toNat_ofNat, flatten_replicate_replicate]
  have a1 : u8 (x : Int) = x := by unfold u8; omega
  have a2 : u8 (y : Int) = y := by unfold u8; omega
  have a3 : u8 ((x : Int) + w - 1) = x + w - 1 := by unfold u8; omega
  have a4 : u8 ((y : Int) + h - 1) = y + h - 1 := by unfold u8; omega
  rw [a1, a2, a3, a4]
  rfl

/-- Witness of C7, the scenario of the specification: `fillRect(0,0,10,5,0xF800)`
on the 128x160 surface gives the window `(0,0,9,4)` and 50 writes of `0xF800`. -/
theorem fillRect_fits_witness :
    (1 ≤ 10 ∧ 1 ≤ 5 ∧ 0 + 10 ≤ initState._width ∧ 0 + 5 ≤ initState._height ∧
      initState._width ≤ 256 ∧ initState._height ≤ 256) ∧
    ST7735_fillRect initState (0 : Nat) (0 : Nat) (10 : Nat) (5 : Nat) 0xF800
      = Op.setAddrWindow 0 0 9 4 :: Op.LCD_DC1 ::
          (List.replicate 50 [Op.senddata 0xF8, Op.senddata 0x00]).flatten :=
  ⟨by decide, fillRect_fits initState 0 0 10 5 0xF800 (by decide) (by decide) (by decide)
    (by decide) (by decide) (by decide)⟩

/-- C8: for `0 ≤ x < _width`, `0 ≤ y < _height` and a 16-bit `w ≥ 1` (on a
surface no larger than the 8-bit coordinate range, as both orientations are)
`ST7735_drawFastHLine` opens the window `(x, y, x+L-1, y)` and streams exactly
`L = min(w, _width - x)` colours. -/
theorem drawFastHLine_clips (s : State) (x y w color : Nat)
    (hx : x < s._width) (hy : y < s._height) (hw : 1 ≤ w) (hw16 : w ≤ 32767)
    (hW : s._width ≤ 256) (hH : s._height ≤ 256) :
    ST7735_drawFastHLine s x y w color
      = Op.setAddrWindow x y (x + min w (s._width - x) - 1) y :: Op.LCD_DC1 ::
          (List.replicate (min w (s._width - x))
            [Op.senddata (color >>> 8), Op.senddata (color &&& 0xFF)]).flatten := by
  unfold ST7735_drawFastHLine
  have hg : ¬ ((x : Int) ≥ s._width ∨ (y : Int) ≥ s._height) := by omega
  rw [if_neg hg]
  have a1 : u8 (x : Int) = x := by unfold u8; omega
  have a2 : u8 (y : Int) = y := by unfold u8; omega
  simp only [streamWhile, a1, a2]
  by_cases c : (x : Int) + w - 1 ≥ s._width
  · have hm : min w (s._width - x) = s._width - x := by omega
    simp only [if_pos c, hm]
    have b1 : u8 ((x : Int) + i16 ((s._width : Int) - x) - 1) = x + (s._width - x) - 1 := by
      unfold u8 i16; omega
    have b2 : u16 (i16 ((s._width : Int) - x)) = s._width - x := by
      unfold u16 i16; omega
    rw [b1, b2]; rfl
  · have hm : min w (s._width - x) = w := by omega
    simp only [if_neg c, hm]
    have b1 : u8 ((x : Int) + w - 1) = x + w - 1 := by unfold u8; omega
    have b2 : u16 (w : Int) = w := by unfold u16; omega
    rw [b1, b2]; rfl

/-- Witness of C8, the scenario of the specification: `drawFastHLine(125,0,10,c)`
on width 128 opens `(125, 0, 127, 0)` and streams 3 colours. -/
theorem drawFastHLine_clips_witness :
    (125 < initState._width ∧ 0 < initState._height ∧ 1 ≤ 10 ∧ 10 ≤ 32767 ∧
      initState._width ≤ 256 ∧ initState._height ≤ 256) ∧
    ST7735_drawFastHLine initState (125 : Nat) (0 : Nat) (10 : Nat) 0x07E0
      = Op.setAddrWindow 125 0 127 0 :: Op.LCD_DC1 ::
          (List.replicate 3 [Op.senddata 0x07, Op.senddata 0xE0]).flatten :=
  ⟨by decide, drawFastHLine_clips initState 125 0 10 0x07E0 (by decide) (by decide) (by decide)
    (by decide) (by decide) (by decide)⟩

/-- C9, the code at the failing input: on the 128x160 portrait surface with
8-pixel-wide glyphs, `ST7735_print("AB", CENTER, 0, 0)` opens the glyph cells
`(72, 0, 79, 7)` and `(80, 0, 87, 7)`: the start is `((_height+1) - 16)/2 = 72`,
computed from the height, not the `56` that centres the string on the width. -/
theorem print_center_uses_height :
    (ST7735_print sampleHeader cellState [65, 66] sampleHeader.CENTER 0 0).filter Op.isWindow
      = [Op.setAddrWindow 72 0 79 7, Op.setAddrWindow 80 0 87 7]
    ∧ cellState._width = 128 ∧ cellState._height = 160 ∧ cellState.cfont.x_size = 8 := by
  decide

/-- C10: for every well-formed packed table, `commandList` emits, entry by
entry in table order, one `sendCmd(opcode)`, one `sendData` per argument byte in
order, then one `delay_ms` exactly when the entry declares a delay (500 for the
delay byte 255, the delay byte otherwise), and nothing else; it reads exactly
the bytes of the table. -/
theorem commandList_emits (es : List Entry) (hwf : tableWF es) (tail : List Nat) :
    commandList (packTable es ++ tail) = some (es.flatMap Entry.emit, tail) := by
  unfold commandList packTable
  simp only [List.cons_append]
  exact commandListLoop_pack es hwf.2 tail

/-- Witness of C10: a three-entry table with a plain delay, the 255 sentinel
and an entry without delay. -/
theorem commandList_emits_witness :
    tableWF [⟨0x01, [], some 150⟩, ⟨0x3A, [0x05], some 255⟩, ⟨0x36, [0xC0, 0x01], none⟩] ∧
    commandList [3, 0x01, 0x80, 150, 0x3A, 0x81, 0x05, 255, 0x36, 0x02, 0xC0, 0x01]
      = some ([Op.sendCmd 0x01, Op.delay_ms 150, Op.sendCmd 0x3A, Op.sendData 0x05,
                Op.delay_ms 500, Op.sendCmd 0x36, Op.sendData 0xC0, Op.sendData 0x01], []) :=
  have hwf : tableWF
      [⟨0x01, [], some 150⟩, ⟨0x3A, [0x05], some 255⟩, ⟨0x36, [0xC0, 0x01], none⟩] := by
    refine ⟨by decide, ?_⟩
    intro e he
    simp only [List.mem_cons, List.mem_singleton, List.not_mem_nil, or_false] at he
    rcases he with rfl | rfl | rfl <;> simp [Entry.WF]
  ⟨hwf, commandList_emits _ hwf []⟩

/-! ## Auxiliary lemmas: bitmap, circle fill and text -/

theorem map_getD_range (data : List Nat) (a k : Nat) (h : a + k ≤ data.length) :
    (List.range k).map (fun i => data.getD (a + i) 0) = (data.drop a).take k := by
  apply List.ext_getElem
  · simp only [List.length_map, List.length_range, List.length_take, List.length_drop]
    omega
  · intro i h1 h2
    simp only [List.length_map, List.length_range] at h1
    simp only [List.getElem_map, List.getElem_range, List.getElem_take, List.getElem_drop]
    rw [List.getD_eq_getElem _ _ (by omega)]

theorem rows_concat (data : List Nat) (sx n : Nat) :
    (List.range n).flatMap (fun ty => (data.drop (ty * sx)).take sx) = data.take (n * sx) := by
  induction n with
  | zero => simp
  | succ n ih =>
    rw [List.range_succ, List.flatMap_append, ih, List.flatMap_singleton, Nat.succ_mul,
      List.take_add]

theorem toNat_index (ty sx tx : Nat) : ((ty : Int) * sx + tx).toNat = ty * sx + tx := by
  have : ((ty : Int) * sx + tx) = ((ty * sx + tx : Nat) : Int) := by push_cast; rfl
  rw [this, Int.toNat_ofNat]

theorem firstXFrom_spec (r y1 : Int) (n : Nat) :
    ∀ x1 : Int, (x1 + n) * (x1 + n) + y1 * y1 ≤ r * r →
      x1 ≤ firstXFrom r y1 n x1 ∧ firstXFrom r y1 n x1 ≤ x1 + n
      ∧ firstXFrom r y1 n x1 * firstXFrom r y1 n x1 + y1 * y1 ≤ r * r
      ∧ ∀ z : Int, x1 ≤ z → z < firstXFrom r y1 n x1 → ¬ (z * z + y1 * y1 ≤ r * r) := by
  induction n with
  | zero =>
    intro x1 h
    simp only [Nat.cast_zero, add_zero] at h
    simp only [firstXFrom]
    refine ⟨le_refl _, by simp, h, ?_⟩
    intro z h1 h2; omega
  | succ n ih =>
    intro x1 h
    by_cases hp : x1 * x1 + y1 * y1 ≤ r * r
    · simp only [firstXFrom, if_pos hp]
      refine ⟨le_refl _, by push_cast; omega, hp, ?_⟩
      intro z h1 h2; omega
    · have h' : (x1 + 1 + (n : Int)) * (x1 + 1 + (n : Int)) + y1 * y1 ≤ r * r := by
        have e : x1 + 1 + (n : Int) = x1 + ((n + 1 : Nat) : Int) := by push_cast; ring
        rw [e]; exact h
      obtain ⟨e2, e3, e4, e5⟩ := ih (x1 + 1) h'
      simp only [firstXFrom, if_neg hp]
      refine ⟨by omega, by push_cast; omega, e4, ?_⟩
      intro z h1 h2
      by_cases hz : z = x1
      · subst hz; exact hp
      · exact e5 z (by omega) h2

theorem firstX_least (r : Int) (hr : 0 ≤ r) (y1 : Int) (h1 : -r ≤ y1) (h2 : y1 ≤ 0) :
    isLeastX r y1 (firstX r y1) := by
  have hy : y1 * y1 ≤ r * r := by nlinarith
  have hn : -r + ((r.toNat : Nat) : Int) = 0 := by rw [Int.toNat_of_nonneg hr]; ring
  have h0 : (-r + ((r.toNat : Nat) : Int)) * (-r + ((r.toNat : Nat) : Int)) + y1 * y1 ≤ r * r := by
    rw [hn]; simpa using hy
  obtain ⟨e2, e3, e4, e5⟩ := firstXFrom_spec r y1 r.toNat (-r) h0
  exact ⟨e2, by rw [hn] at e3; exact e3, e4, e5⟩

/-- Within the radius 32767 the 32-bit test of `ST7735_fillCircle` is exact. -/
theorem inside_exact (r x1 y1 : Int) (hr : r ≤ 32767)
    (hx1 : -r ≤ x1) (hx2 : x1 ≤ 0) (hy1 : -r ≤ y1) (hy2 : y1 ≤ 0) :
    (i32 (i32 (x1 * x1) + i32 (y1 * y1)) ≤ i32 (r * r)) ↔ (x1 * x1 + y1 * y1 ≤ r * r) := by
  have bx : x1 * x1 ≤ 32767 * 32767 := by nlinarith
  have by1 : y1 * y1 ≤ 32767 * 32767 := by nlinarith
  have br : r * r ≤ 32767 * 32767 := by nlinarith
  have px : 0 ≤ x1 * x1 := mul_self_nonneg x1
  have py : 0 ≤ y1 * y1 := mul_self_nonneg y1
  have pr : 0 ≤ r * r := mul_self_nonneg r
  have ex : i32 (x1 * x1) = x1 * x1 := by unfold i32; omega
  have ey : i32 (y1 * y1) = y1 * y1 := by unfold i32; omega
  have er : i32 (r * r) = r * r := by unfold i32; omega
  have es : i32 (x1 * x1 + y1 * y1) = x1 * x1 + y1 * y1 := by unfold i32; omega
  rw [ex, ey, er, es]

theorem fillCircleRow_first (s : State) (x y r : Int) (color : Nat) (y1 : Int)
    (hr : r ≤ 32767) (hy1 : -r ≤ y1) (hy2 : y1 ≤ 0) (n : Nat) :
    ∀ x1 : Int, -r ≤ x1 → x1 + n = 0 →
      fillCircleRow s x y r color y1 (n + 1) x1
        = rowRuns s x y color y1 (firstXFrom r y1 n x1) := by
  induction n with
  | zero =>
    intro x1 hx hn
    have h0 : x1 = 0 := by simpa using hn
    subst h0
    have hp : (0 : Int) * 0 + y1 * y1 ≤ r * r := by nlinarith
    have hq := (inside_exact r 0 y1 hr hx (le_refl _) hy1 hy2).2 hp
    simp only [fillCircleRow, firstXFrom, if_pos hq, rowRuns]
  | succ n ih =>
    intro x1 hx hn
    have hx0 : x1 ≤ 0 := by push_cast at hn; omega
    by_cases hp : x1 * x1 + y1 * y1 ≤ r * r
    · have hq := (inside_exact r x1 y1 hr hx hx0 hy1 hy2).2 hp
      rw [fillCircleRow, if_pos hq]
      simp only [firstXFrom, if_pos hp, rowRuns]
    · have hq : ¬ (i32 (i32 (x1 * x1) + i32 (y1 * y1)) ≤ i32 (r * r)) :=
        fun h => hp ((inside_exact r x1 y1 hr hx hx0 hy1 hy2).1 h)
      rw [fillCircleRow, if_neg hq]
      simp only [firstXFrom, if_neg hp]
      exact ih (x1 + 1) (by omega) (by push_cast at hn; omega)

theorem flatMap_replicate_sum (P : List Op) (l : List Nat) (n : Nat → Nat) :
    l.flatMap (fun a => (List.replicate (n a) P).flatten)
      = (List.replicate ((l.map n).sum) P).flatten := by
  induction l with
  | nil => simp
  | cons a l ih =>
    rw [List.flatMap_cons, ih, List.map_cons, List.sum_cons, List.replicate_add,
      List.flatten_append]

theorem flatMap_ite_replicate (P : List Op) (l : List Nat) (p : Nat → Bool) :
    l.flatMap (fun i => if p i then P else [])
      = (List.replicate ((l.filter p).length) P).flatten := by
  induction l with
  | nil => simp
  | cons a l ih =>
    rw [List.flatMap_cons, ih]
    by_cases h : p a
    · simp [h, List.replicate_succ]
    · simp [h]

theorem length_flatMap_const (l : List Nat) (f : Nat → List Op) (m : Nat)
    (h : ∀ a, (f a).length = m) : (l.flatMap f).length = l.length * m := by
  induction l with
  | nil => simp
  | cons a l ih =>
    rw [List.flatMap_cons, List.length_append, ih, h a, List.length_cons]
    ring

theorem filter_window_pushColor (c : Nat) : (ST7735_pushColor c).filter Op.isWindow = [] := by
  simp [ST7735_pushColor, putpix, Op.isWindow]

theorem filter_not_window_pushColor (c : Nat) :
    (ST7735_pushColor c).filter (fun o => !o.isWindow) = ST7735_pushColor c := by
  simp [ST7735_pushColor, putpix, Op.isWindow]

theorem range_mul_flatMap (m q : Nat) (G : Nat → List Op) :
    (List.range (m * q)).flatMap G
      = (List.range m).flatMap (fun a => (List.range q).flatMap (fun b => G (a * q + b))) := by
  induction m with
  | zero => simp
  | succ m ih =>
    rw [Nat.succ_mul, List.range_add, List.flatMap_append, ih, List.range_succ,
      List.flatMap_append, List.flatMap_singleton, List.flatMap_map]

theorem countP_flatMap_const (p : Op → Bool) (l : List Nat) (f : Nat → List Op) (m : Nat)
    (h : ∀ a, (f a).countP p = m) : (l.flatMap f).countP p = l.length * m := by
  induction l with
  | nil => simp
  | cons a l ih =>
    rw [List.flatMap_cons, List.countP_append, ih, h a, List.length_cons]
    ring

/-! ## Claims: addressing window, pixel, outline, bitmap, text -/

/-- C11: for every `x0, y0, x1, y1` and offsets `colstart, rowstart`,
`ST7735_setAddrWindow` emits exactly the 11 transport calls CASET, 0,
`x0+colstart`, 0, `x1+colstart`, RASET, 0, `y0+rowstart`, 0, `y1+rowstart`,
RAMWR (data values modulo 256); the trace does not depend on `_width` or
`_height` (no clipping), and the function only reads the globals. -/
theorem setAddrWindow_trace (K : Header) (s : State) (x0 y0 x1 y1 : Nat) :
    ST7735_setAddrWindow K s x0 y0 x1 y1
      = [Op.sendCmd K.ST7735_CASET,
         Op.sendData 0x00,
         Op.sendData (((x0 : Int) + s.colstart) % 256).toNat,
         Op.sendData 0x00,
         Op.sendData (((x1 : Int) + s.colstart) % 256).toNat,
         Op.sendCmd K.ST7735_RASET,
         Op.sendData 0x00,
         Op.sendData (((y0 : Int) + s.rowstart) % 256).toNat,
         Op.sendData 0x00,
         Op.sendData (((y1 : Int) + s.rowstart) % 256).toNat,
         Op.sendCmd K.ST7735_RAMWR]
    ∧ (ST7735_setAddrWindow K s x0 y0 x1 y1).length = 11
    ∧ transport K s [Op.setAddrWindow x0 y0 x1 y1] = ST7735_setAddrWindow K s x0 y0 x1 y1
    ∧ ∀ w h : Nat, ST7735_setAddrWindow K { s with _width := w, _height := h } x0 y0 x1 y1
        = ST7735_setAddrWindow K s x0 y0 x1 y1 := by
  refine ⟨rfl, rfl, ?_, fun _ _ => rfl⟩
  simp [transport]

/-- C12, counterexample: on the initial surface `ST7735_drawPixel(3, 4, c)` calls
`ST7735_setAddrWindow(3, 4, 4, 5)`; it never calls `ST7735_setAddrWindow(3, 4, 3, 4)`. -/
theorem drawPixel_window_two_by_two :
    ST7735_drawPixel initState 3 4 0xF800
      = [Op.setAddrWindow 3 4 4 5, Op.LCD_DC1, Op.senddata 0xF8, Op.senddata 0x00]
    ∧ Op.setAddrWindow 3 4 3 4 ∉ ST7735_drawPixel initState 3 4 0xF800 := by
  decide

/-- C12, amended: for an in-range pixel (`x < _width`, `y < _height`, on a surface
below the 8-bit coordinate limit, as both orientations are) `ST7735_drawPixel`
calls `ST7735_setAddrWindow(x, y, x+1, y+1)`, enters data mode and streams
exactly one colour, high byte then low byte. -/
theorem drawPixel_in_range (s : State) (x y color : Nat)
    (hx : x < s._width) (hy : y < s._height) (hW : s._width ≤ 255) (hH : s._height ≤ 255) :
    ST7735_drawPixel s x y color
      = [Op.setAddrWindow x y (x + 1) (y + 1), Op.LCD_DC1,
         Op.senddata (color >>> 8), Op.senddata (color &&& 0xFF)] := by
  unfold ST7735_drawPixel
  have hg : ¬ ((x : Int) < 0 ∨ (x : Int) ≥ s._width ∨ (y : Int) < 0 ∨ (y : Int) ≥ s._height) := by
    omega
  rw [if_neg hg]
  have a1 : u8 (x : Int) = x := by unfold u8; omega
  have a2 : u8 (y : Int) = y := by unfold u8; omega
  have a3 : u8 ((x : Int) + 1) = x + 1 := by unfold u8; omega
  have a4 : u8 ((y : Int) + 1) = y + 1 := by unfold u8; omega
  rw [a1, a2, a3, a4]
  rfl

/-- Witness of C12 amended at the pixel `(3, 4)` of the initial surface. -/
theorem drawPixel_in_range_witness :
    (3 < initState._width ∧ 4 < initState._height ∧ initState._width ≤ 255 ∧
      initState._height ≤ 255) ∧
    ST7735_drawPixel initState (3 : Nat) (4 : Nat) 0xF800
      = [Op.setAddrWindow 3 4 4 5, Op.LCD_DC1, Op.senddata 0xF8, Op.senddata 0x00] :=
  ⟨by decide, drawPixel_in_range initState 3 4 0xF800 (by decide) (by decide) (by decide)
    (by decide)⟩

/-- C13, the code at the failing input: `ST7735_drawRect(0, 0, 3, 3, c)` opens the
four windows `(0,0,2,0)`, `(3,0,3,2)`, `(0,3,2,3)` and `(0,0,0,2)`; each run is
one pixel short, and no window covers the corner `(3, 3)`. -/
theorem drawRect_misses_corner :
    (ST7735_drawRect initState 0 0 3 3 0xF800).filter Op.isWindow
      = [Op.setAddrWindow 0 0 2 0, Op.setAddrWindow 3 0 3 2,
         Op.setAddrWindow 0 3 2 3, Op.setAddrWindow 0 0 0 2]
    ∧ (ST7735_drawRect initState 0 0 3 3 0xF800).any (Op.covers 3 3) = false := by
  decide

/-- C14: for a buffer of `sx*sy` pixels `ST7735_drawBitmap(x,y,sx,sy,data,1)`
emits, when `orientation` is a portrait state, one window
`(x, y, x+sx-1, y+sy-1)` followed by `data[0], data[1], ...` in order, and
otherwise, for each row `ty` in order, one window `(x, y+ty, x+sx-1, y+ty)`
followed by that source row in reversed column order (window arguments as
converted to the `uint8_t` parameters).  The colours streamed row by row are a
permutation of `data`: `sx*sy` colours, each source pixel exactly once. -/
theorem drawBitmap_unscaled (s : State) (x y : Int) (sx sy : Nat) (data : List Nat)
    (hd : data.length = sx * sy) :
    ST7735_drawBitmap s x y sx sy data 1
      = (if s.orientation = PORTRAIT_NORMAL ∨ s.orientation = PORTRAIT_FLIP then
          Op.setAddrWindow (u8 x) (u8 y) (u8 (x + sx - 1)) (u8 (y + sy - 1)) :: Op.LCD_DC1 ::
            data.flatMap putpix
         else
          (List.range sy).flatMap (fun ty =>
            Op.setAddrWindow (u8 x) (u8 (y + ty)) (u8 (x + sx - 1)) (u8 (y + ty)) ::
              Op.LCD_DC1 :: ((data.drop (ty * sx)).take sx).reverse.flatMap putpix))
    ∧ ((List.range sy).flatMap (fun ty => ((data.drop (ty * sx)).take sx).reverse)).Perm data
    ∧ ((List.range sy).flatMap (fun ty => ((data.drop (ty * sx)).take sx).reverse)).length
        = sx * sy := by
  have hperm : ((List.range sy).flatMap
      (fun ty => ((data.drop (ty * sx)).take sx).reverse)).Perm data := by
    have h1 : ((List.range sy).flatMap (fun ty => ((data.drop (ty * sx)).take sx).reverse)).Perm
        ((List.range sy).flatMap (fun ty => (data.drop (ty * sx)).take sx)) :=
      List.Perm.flatMap_left _ (fun ty _ => List.reverse_perm _)
    have h2 : (List.range sy).flatMap (fun ty => (data.drop (ty * sx)).take sx) = data := by
      rw [rows_concat, List.take_of_length_le]
      rw [hd, Nat.mul_comm]
    rw [h2] at h1
    exact h1
  refine ⟨?_, hperm, ?_⟩
  · by_cases hp : s.orientation = PORTRAIT_NORMAL ∨ s.orientation = PORTRAIT_FLIP
    · rw [if_pos hp]
      unfold ST7735_drawBitmap
      rw [if_pos rfl, if_pos hp]
      have e : ((sx : Int) * sy).toNat = data.length := by
        rw [hd]
        have : ((sx : Int) * sy) = ((sx * sy : Nat) : Int) := by push_cast; rfl
        rw [this, Int.toNat_ofNat]
      rw [e]
      have h := map_getD_range data 0 data.length (by omega)
      simp only [Nat.zero_add, List.drop_zero, List.take_length] at h
      have : (List.range data.length).flatMap (fun tc => putpix (data.getD tc 0))
          = ((List.range data.length).map (fun i => data.getD i 0)).flatMap putpix := by
        rw [List.flatMap_map]
      rw [this, h]
    · rw [if_neg hp]
      unfold ST7735_drawBitmap
      rw [if_pos rfl, if_neg hp]
      simp only [Int.toNat_ofNat]
      apply List.flatMap_congr
      intro ty hty
      rw [List.mem_range] at hty
      have hrow : ty * sx + sx ≤ data.length := by
        rw [hd]
        calc ty * sx + sx = (ty + 1) * sx := by ring
          _ ≤ sy * sx := Nat.mul_le_mul_right _ hty
          _ = sx * sy := Nat.mul_comm _ _
      have h := map_getD_range data (ty * sx) sx hrow
      rw [← h, ← List.map_reverse, List.flatMap_map]
      simp only [toNat_index]
  · rw [hperm.length_eq, hd]

/-- Witness of C14: a 3x2 buffer drawn at `(1, 2)` on the initial portrait surface. -/
theorem drawBitmap_unscaled_witness :
    ([10, 11, 12, 13, 14, 15] : List Nat).length = 3 * 2 ∧
    (ST7735_drawBitmap initState 1 2 (3 : Nat) (2 : Nat) [10, 11, 12, 13, 14, 15] 1
      = (if initState.orientation = PORTRAIT_NORMAL ∨ initState.orientation = PORTRAIT_FLIP then
          Op.setAddrWindow (u8 1) (u8 2) (u8 (1 + (3 : Nat) - 1)) (u8 (2 + (2 : Nat) - 1)) ::
            Op.LCD_DC1 :: ([10, 11, 12, 13, 14, 15] : List Nat).flatMap putpix
         else
          (List.range 2).flatMap (fun ty =>
            Op.setAddrWindow (u8 1) (u8 (2 + ty)) (u8 (1 + (3 : Nat) - 1)) (u8 (2 + ty)) ::
              Op.LCD_DC1 ::
              ((([10, 11, 12, 13, 14, 15] : List Nat).drop (ty * 3)).take 3).reverse.flatMap
                putpix))
    ∧ ((List.range 2).flatMap (fun ty =>
        ((([10, 11, 12, 13, 14, 15] : List Nat).drop (ty * 3)).take 3).reverse)).Perm
          [10, 11, 12, 13, 14, 15]
    ∧ ((List.range 2).flatMap (fun ty =>
        ((([10, 11, 12, 13, 14, 15] : List Nat).drop (ty * 3)).take 3).reverse)).length
          = 3 * 2) :=
  ⟨by decide, drawBitmap_unscaled initState 1 2 3 2 [10, 11, 12, 13, 14, 15] (by decide)⟩

/-- C15, counterexample: in transparent mode the glyph whose bytes are all zero
still produces 16 `ST7735_setAddrWindow` calls, one per bit, so the trace is not
empty although no bit is set. -/
theorem printChar_blank_glyph_windows :
    (printChar blankFontState 65 0 0).countP Op.isWindow = 16
    ∧ printChar blankFontState 65 0 0 ≠ []
    ∧ blankFontState._transparent = 1
    ∧ blankFontState.cfont.font.drop 4 = [0, 0] := by
  decide

/-- C15, amended: in transparent mode `printChar` opens a window for every bit
of the glyph, set or not, in row order: `8 * fz * y_size` windows, each
`(px, py, px+1, py+1)` at the pixel of its bit, followed by one write of the
foreground colour exactly when the bit is set.  The calls that are not windows
are one foreground write per set bit of the glyph. -/
theorem printChar_transparent (s : State) (c : Nat) (x y : Int) (ht : s._transparent ≠ 0) :
    printChar s c x y
      = (List.range s.cfont.y_size).flatMap (fun j =>
          (List.range (fontFz s.cfont)).flatMap (fun zz =>
            (List.range 8).flatMap (fun i =>
              bitWindow x y j zz i ::
                (if bitSet (glyphByte s.cfont c j zz) i then ST7735_pushColor s._fg else []))))
    ∧ (printChar s c x y).filter Op.isWindow
      = (List.range s.cfont.y_size).flatMap (fun j =>
          (List.range (fontFz s.cfont)).flatMap (fun zz =>
            (List.range 8).map (fun i => bitWindow x y j zz i)))
    ∧ (printChar s c x y).countP Op.isWindow = 8 * fontFz s.cfont * s.cfont.y_size
    ∧ (printChar s c x y).filter (fun o => !o.isWindow)
      = (List.replicate (glyphSetBits s.cfont c) (ST7735_pushColor s._fg)).flatten := by
  have e0 : printChar s c x y
      = (List.range s.cfont.y_size).flatMap (fun j =>
          (List.range (fontFz s.cfont)).flatMap (fun zz =>
            (List.range 8).flatMap (fun i =>
              bitWindow x y j zz i ::
                (if bitSet (glyphByte s.cfont c j zz) i then ST7735_pushColor s._fg
                 else [])))) := by
    unfold printChar
    simp only [if_neg ht]
    simp only [bitWindow, bitSet, glyphByte, glyphBase, fontFz, decide_eq_true_eq]
  have e1 : (printChar s c x y).filter Op.isWindow
      = (List.range s.cfont.y_size).flatMap (fun j =>
          (List.range (fontFz s.cfont)).flatMap (fun zz =>
            (List.range 8).map (fun i => bitWindow x y j zz i))) := by
    rw [e0]
    simp only [List.filter_flatMap]
    apply List.flatMap_congr; intro j _
    apply List.flatMap_congr; intro zz _
    rw [List.map_eq_flatMap]
    apply List.flatMap_congr; intro i _
    rw [List.filter_cons]
    have hw : (bitWindow x y j zz i).isWindow = true := rfl
    rw [if_pos hw]
    split
    · rw [filter_window_pushColor]
    · rfl
  refine ⟨e0, e1, ?_, ?_⟩
  · rw [List.countP_eq_length_filter, e1]
    rw [length_flatMap_const _ _ (8 * fontFz s.cfont), List.length_range]
    · ring
    · intro j
      rw [length_flatMap_const _ _ 8, List.length_range]
      · ring
      · intro zz
        rw [List.length_map, List.length_range]
  · rw [e0]
    simp only [List.filter_flatMap]
    have inner : ∀ j zz : Nat,
        (List.range 8).flatMap (fun i =>
          List.filter (fun o => !o.isWindow)
            (bitWindow x y j zz i ::
              (if bitSet (glyphByte s.cfont c j zz) i then ST7735_pushColor s._fg else [])))
        = (List.replicate
            ((List.range 8).filter (fun i => bitSet (glyphByte s.cfont c j zz) i)).length
            (ST7735_pushColor s._fg)).flatten := by
      intro j zz
      rw [← flatMap_ite_replicate]
      apply List.flatMap_congr; intro i _
      rw [List.filter_cons]
      have hw : (!(bitWindow x y j zz i).isWindow) = false := rfl
      rw [hw]
      simp only [Bool.false_eq_true, if_false]
      split
      · rw [filter_not_window_pushColor]
      · rfl
    simp only [inner, flatMap_replicate_sum]
    rfl

/-- Witness of C15 amended: the glyph of code 65 of `sampleFont` at `(10, 20)`. -/
theorem printChar_transparent_witness :
    glyphState._transparent ≠ 0 ∧
    (printChar glyphState 65 10 20
      = (List.range glyphState.cfont.y_size).flatMap (fun j =>
          (List.range (fontFz glyphState.cfont)).flatMap (fun zz =>
            (List.range 8).flatMap (fun i =>
              bitWindow 10 20 j zz i ::
                (if bitSet (glyphByte glyphState.cfont 65 j zz) i
                 then ST7735_pushColor glyphState._fg else []))))
    ∧ (printChar glyphState 65 10 20).filter Op.isWindow
      = (List.range glyphState.cfont.y_size).flatMap (fun j =>
          (List.range (fontFz glyphState.cfont)).flatMap (fun zz =>
            (List.range 8).map (fun i => bitWindow 10 20 j zz i)))
    ∧ (printChar glyphState 65 10 20).countP Op.isWindow
        = 8 * fontFz glyphState.cfont * glyphState.cfont.y_size
    ∧ (printChar glyphState 65 10 20).filter (fun o => !o.isWindow)
      = (List.replicate (glyphSetBits glyphState.cfont 65)
          (ST7735_pushColor glyphState._fg)).flatten) :=
  ⟨by decide, printChar_transparent glyphState 65 10 20 (by decide)⟩

/-- C16, counterexample: for a glyph 12 pixels wide and 2 high `printChar` opens
the window `(0, 0, 11, 1)` of 24 pixels but streams 16 colours, 8 per glyph byte. -/
theorem printChar_wide_glyph_count :
    (printChar wideFontState 65 0 0).filter Op.isWindow = [Op.setAddrWindow 0 0 11 1]
    ∧ (printChar wideFontState 65 0 0).count Op.LCD_DC1 = 16
    ∧ wideFontState.cfont.x_size * wideFontState.cfont.y_size = 24 := by
  decide

/-- C16, amended: when `_transparent` is 0 and the glyph width is a multiple of 8,
`printChar` opens exactly one window `(x, y, x+w-1, y+h-1)` over the glyph cell
and streams exactly `w*h` colours, one per glyph pixel in row-major order, most
significant bit first, foreground for a set bit and background for a clear one. -/
theorem printChar_cell (s : State) (c : Nat) (x y : Int) (k : Nat)
    (ht : s._transparent = 0) (hw : s.cfont.x_size = 8 * k) :
    printChar s c x y
      = Op.setAddrWindow (u8 x) (u8 y) (u8 (x + s.cfont.x_size - 1))
          (u8 (y + s.cfont.y_size - 1)) ::
        (List.range s.cfont.y_size).flatMap (fun row =>
          (List.range s.cfont.x_size).flatMap (fun col =>
            ST7735_pushColor (cellColor s c row col)))
    ∧ (printChar s c x y).countP Op.isWindow = 1
    ∧ (printChar s c x y).countP (fun o => o = Op.LCD_DC1)
        = s.cfont.x_size * s.cfont.y_size := by
  have hfz : fontFz s.cfont = k := by
    unfold fontFz
    split <;> omega
  have e0 : printChar s c x y
      = Op.setAddrWindow (u8 x) (u8 y) (u8 (x + s.cfont.x_size - 1))
          (u8 (y + s.cfont.y_size - 1)) ::
        (List.range s.cfont.y_size).flatMap (fun row =>
          (List.range s.cfont.x_size).flatMap (fun col =>
            ST7735_pushColor (cellColor s c row col))) := by
    unfold printChar
    simp only [if_pos ht]
    congr 1
    have hfz2 : (if s.cfont.x_size < 8 then s.cfont.x_size else s.cfont.x_size / 8) = k := hfz
    rw [hfz2, Nat.mul_comm k s.cfont.y_size, range_mul_flatMap]
    apply List.flatMap_congr; intro row _
    rw [hw, Nat.mul_comm 8 k, range_mul_flatMap]
    apply List.flatMap_congr; intro b _
    apply List.flatMap_congr; intro i hi
    rw [List.mem_range] at hi
    have d1 : (b * 8 + i) / 8 = b := by omega
    have d2 : (b * 8 + i) % 8 = i := by omega
    simp only [cellColor, bitSet, glyphBase, hfz, hfz2, d1, d2, decide_eq_true_eq]
    split <;> rfl
  refine ⟨e0, ?_, ?_⟩
  · have hin : ∀ row : Nat, ((List.range s.cfont.x_size).flatMap (fun col =>
        ST7735_pushColor (cellColor s c row col))).countP Op.isWindow = 0 := by
      intro row
      rw [countP_flatMap_const _ _ _ 0 (by intro col; simp [ST7735_pushColor, putpix, Op.isWindow]),
        Nat.mul_zero]
    rw [e0, List.countP_cons_of_pos _ _ (by rfl), countP_flatMap_const _ _ _ 0 hin, Nat.mul_zero]
  · have hin : ∀ row : Nat, ((List.range s.cfont.x_size).flatMap (fun col =>
        ST7735_pushColor (cellColor s c row col))).countP (fun o => o = Op.LCD_DC1)
          = s.cfont.x_size := by
      intro row
      rw [countP_flatMap_const _ _ _ 1 (by intro col; simp [ST7735_pushColor, putpix]),
        List.length_range, Nat.mul_one]
    rw [e0, List.countP_cons_of_neg _ _ (by simp), countP_flatMap_const _ _ _ _ hin,
      List.length_range, Nat.mul_comm]

/-- Witness of C16 amended: the 8x8 glyph of code 66 of `sampleFont` at `(10, 20)`. -/
theorem printChar_cell_witness :
    (cellState._transparent = 0 ∧ cellState.cfont.x_size = 8 * 1) ∧
    (printChar cellState 66 10 20
      = Op.setAddrWindow (u8 10) (u8 20) (u8 (10 + cellState.cfont.x_size - 1))
          (u8 (20 + cellState.cfont.y_size - 1)) ::
        (List.range cellState.cfont.y_size).flatMap (fun row =>
          (List.range cellState.cfont.x_size).flatMap (fun col =>
            ST7735_pushColor (cellColor cellState 66 row col)))
    ∧ (printChar cellState 66 10 20).countP Op.isWindow = 1
    ∧ (printChar cellState 66 10 20).countP (fun o => o = Op.LCD_DC1)
        = cellState.cfont.x_size * cellState.cfont.y_size) :=
  ⟨by decide, printChar_cell cellState 66 10 20 1 (by decide) (by decide)⟩

/-- C17, the code at the failing input: `ST7735_setRotation(4)` stores
`orientation = 4`, not `4 mod 4 = 0`, while it sets the portrait size 128x160;
`ST7735_drawBitmap` then takes the row-by-row path with reversed columns, not
the portrait path. -/
theorem setRotation_stores_mode :
    (ST7735_setRotation sampleHeader initState 4).1.orientation = 4
    ∧ (ST7735_setRotation sampleHeader initState 4).1._width = 128
    ∧ (ST7735_setRotation sampleHeader initState 4).1._height = 160
    ∧ ST7735_drawBitmap (ST7735_setRotation sampleHeader initState 4).1 0 0 2 2 [1, 2, 3, 4] 1
        = [Op.setAddrWindow 0 0 1 0, Op.LCD_DC1,
           Op.senddata 0, Op.senddata 2, Op.senddata 0, Op.senddata 1,
           Op.setAddrWindow 0 1 1 1, Op.LCD_DC1,
           Op.senddata 0, Op.senddata 4, Op.senddata 0, Op.senddata 3] := by
  decide

/-- C18, counterexample: for the radius 32768 the sum `x1*x1 + y1*y1` of the first
row (`x1 = y1 = -32768`) is `2^31`, which wraps to a negative `int`, so the test
succeeds at `x1 = -32768` although `x1^2 + y1^2 > r^2`: the first two runs are
made with `x1 = -32768` and open the window `(200, 0, 199, 0)`, while the least
`x1` inside the circle on that row is 0, whose run at `x = 200` would emit
nothing. -/
theorem fillCircle_radius_overflow :
    (ST7735_fillCircle initState 200 0 32768 0xF800).take 4
      = [Op.setAddrWindow 200 0 199 0, Op.LCD_DC1, Op.setAddrWindow 200 0 199 0, Op.LCD_DC1]
    ∧ ¬ ((-32768 : Int) * (-32768) + (-32768) * (-32768) ≤ 32768 * 32768)
    ∧ isLeastX 32768 (-32768) 0
    ∧ rowRuns initState 200 0 0xF800 (-32768) 0 = [] := by
  refine ⟨?_, by decide, ⟨by decide, by decide, by decide, ?_⟩, by decide⟩
  · have hn : ((32768 : Int) + 1).toNat = 32768 + 1 := by decide
    have hrow : fillCircleRow initState 200 0 32768 0xF800 (-32768 + ((0 : Nat) : Int))
        (32768 + 1) (-32768)
        = [Op.setAddrWindow 200 0 199 0, Op.LCD_DC1, Op.setAddrWindow 200 0 199 0,
           Op.LCD_DC1] := by
      decide
    unfold ST7735_fillCircle
    rw [hn, List.range_succ_eq_map, List.flatMap_cons, hrow]
    rfl
  · intro x1 h1 h2
    have : 0 < x1 * x1 := by nlinarith
    omega

/-- C18, amended: for every radius `0 ≤ r ≤ 32767`, `ST7735_fillCircle` consists of
the runs of the `r + 1` row offsets `y1 = -r, ..., 0` in order, two per row:
`drawFastHLine(x+x1*, y+y1, 2*(-x1*))` then `drawFastHLine(x+x1*, y-y1, 2*(-x1*))`
(arguments as converted to `int16_t`), where `x1*` is the first `x1` of the scan
from `-r`; that `x1*` always exists and is the least `x1` in `[-r, 0]` with
`x1^2 + y1^2 ≤ r^2`. -/
theorem fillCircle_runs (s : State) (x y r : Int) (color : Nat) (hr : 0 ≤ r)
    (hr2 : r ≤ 32767) :
    ST7735_fillCircle s x y r color
      = (List.range (r.toNat + 1)).flatMap (fun k =>
          ST7735_drawFastHLine s (i16 (x + firstX r (-r + k))) (i16 (y + (-r + k)))
            (i16 (2 * (-(firstX r (-r + k))))) color ++
          ST7735_drawFastHLine s (i16 (x + firstX r (-r + k))) (i16 (y - (-r + k)))
            (i16 (2 * (-(firstX r (-r + k))))) color)
    ∧ ∀ k : Nat, k ≤ r.toNat → isLeastX r (-r + k) (firstX r (-r + k)) := by
  have hk : ∀ k : Nat, k ≤ r.toNat → -r ≤ -r + (k : Int) ∧ -r + (k : Int) ≤ 0 := by
    intro k hk
    have : ((r.toNat : Nat) : Int) = r := Int.toNat_of_nonneg hr
    omega
  constructor
  · unfold ST7735_fillCircle
    have e : (r + 1).toNat = r.toNat + 1 := by omega
    rw [e]
    apply List.flatMap_congr
    intro k hkm
    rw [List.mem_range] at hkm
    obtain ⟨b1, b2⟩ := hk k (by omega)
    have hn : -r + ((r.toNat : Nat) : Int) = 0 := by rw [Int.toNat_of_nonneg hr]; ring
    exact fillCircleRow_first s x y r color (-r + k) hr2 b1 b2 r.toNat (-r) (le_refl _) hn
  · intro k hkr
    obtain ⟨b1, b2⟩ := hk k hkr
    exact firstX_least r hr _ b1 b2

/-- Witness of C18 amended: the filled circle of radius 3 centred at `(20, 20)`. -/
theorem fillCircle_runs_witness :
    ((0 : Int) ≤ 3 ∧ (3 : Int) ≤ 32767) ∧
    (ST7735_fillCircle initState 20 20 3 0xF800
      = (List.range ((3 : Int).toNat + 1)).flatMap (fun k =>
          ST7735_drawFastHLine initState (i16 (20 + firstX 3 (-3 + k))) (i16 (20 + (-3 + k)))
            (i16 (2 * (-(firstX 3 (-3 + k))))) 0xF800 ++
          ST7735_drawFastHLine initState (i16 (20 + firstX 3 (-3 + k))) (i16 (20 - (-3 + k)))
            (i16 (2 * (-(firstX 3 (-3 + k))))) 0xF800)
    ∧ ∀ k : Nat, k ≤ (3 : Int).toNat → isLeastX 3 (-3 + k) (firstX 3 (-3 + k))) :=
  ⟨by decide, fillCircle_runs initState 20 20 3 0xF800 (by decide) (by decide)⟩

/-- C19, the code at the failing input: the horizontal segment from `(2, 3)` to
`(6, 3)` is drawn as `ST7735_fillRect(2, 3, 6, 3, c)`: one window `(2, 3, 7, 5)`
and 18 colours, a block three rows high that also reaches column 7. -/
theorem drawFastLine_horizontal_block :
    ST7735_drawFastLine initState 2 3 6 3 0xF800
      = Op.setAddrWindow 2 3 7 5 :: Op.LCD_DC1 :: (List.replicate 18 (putpix 0xF800)).flatten := by
  decide

/-- C20, the code at the failing input: in the portrait orientation
`ST7735_drawBitmap(0, 0, 1, 1, data, 2)` opens the window `(0, 0, 1, 2)`, three
rows high for a scale of 2, and streams 4 colours into its 6 pixels. -/
theorem drawBitmap_scaled_window_tall :
    ST7735_drawBitmap initState 0 0 1 1 [0xF800] 2
      = Op.setAddrWindow 0 0 1 2 :: (List.replicate 4 (ST7735_pushColor 0xF800)).flatten
    ∧ initState.orientation = PORTRAIT_NORMAL := by
  decide

/-! ## Claims: sloped lines, right alignment, vertical runs, tables -/

/-- C21, the code at the failing input: for the line from `(10, 10)` to `(0, 15)`
(`dx < 0`, `dy > 0`, x-major) the plotted ordinates run 10, 10, 9, 9, 8, ... down
to 6, away from `y2 = 15`: the point `(8, 9)` is passed to `ST7735_drawPixel` and
lies outside the bounding box.  For the y-major line from `(10, 10)` to `(5, 30)`
the abscissa grows to 14, away from `x2 = 5`. -/
theorem drawFastLine_leftward_wrong_way :
    (ST7735_drawFastLine initState 10 10 0 15 0xF800).filter Op.isWindow
      = [Op.setAddrWindow 10 10 11 11, Op.setAddrWindow 9 10 10 11,
         Op.setAddrWindow 8 9 9 10, Op.setAddrWindow 7 9 8 10,
         Op.setAddrWindow 6 8 7 9, Op.setAddrWindow 5 8 6 9,
         Op.setAddrWindow 4 7 5 8, Op.setAddrWindow 3 7 4 8,
         Op.setAddrWindow 2 6 3 7, Op.setAddrWindow 1 6 2 7,
         Op.setAddrWindow 0 15 1 16]
    ∧ Op.setAddrWindow 8 9 9 10 :: ST7735_pushColor 0xF800 = ST7735_drawPixel initState 8 9 0xF800
    ∧ ¬ (min 10 15 ≤ 9)
    ∧ Op.setAddrWindow 14 29 15 30 ∈ ST7735_drawFastLine initState 10 10 5 30 0xF800
    ∧ Op.setAddrWindow 14 29 15 30 :: ST7735_pushColor 0xF800
        = ST7735_drawPixel initState 14 29 0xF800
    ∧ ¬ (14 ≤ max 10 5) := by
  decide

/-- C22, the code at the failing input: on the 128-wide surface with
8-pixel-wide glyphs `ST7735_print("AB", RIGHT, 0, 0)` opens the glyph cells
`(113, 0, 120, 7)` and `(121, 0, 128, 7)`: the start is `(_width+1) - 16 = 113`,
not `128 - 16 = 112`, and the last cell ends at column 128, off the surface. -/
theorem print_right_one_column_over :
    (ST7735_print sampleHeader cellState [65, 66] sampleHeader.RIGHT 0 0).filter Op.isWindow
      = [Op.setAddrWindow 113 0 120 7, Op.setAddrWindow 121 0 128 7]
    ∧ cellState._width = 128 ∧ cellState.cfont.x_size = 8 := by
  decide

/-- C23, counterexample: on the initial surface `ST7735_drawFastVLine(0, 0, -1, c)`
is not clipped and its loop `while (h--)` runs until the 16-bit counter wraps
to zero: 65535 colours are streamed, more than the 160 rows below `y = 0`. -/
theorem drawFastVLine_negative_length :
    ST7735_drawFastVLine initState 0 0 (-1) 0xF800
      = Op.setAddrWindow 0 0 0 254 :: Op.LCD_DC1 ::
          (List.replicate 65535 (putpix 0xF800)).flatten
    ∧ ¬ (65535 ≤ initState._height - 0) := by
  constructor
  · have e1 : u16 (-1) = 65535 := by decide
    have e2 : u8 ((0 : Int) + (-1) - 1) = 254 := by decide
    have e3 : u8 (0 : Int) = 0 := by decide
    have hg : ¬ ((0 : Int) ≥ (initState._width : Int) ∨ (0 : Int) ≥ (initState._height : Int)) := by
      decide
    have hc : ¬ ((0 : Int) + (-1) - 1 ≥ (initState._height : Int)) := by decide
    unfold ST7735_drawFastVLine
    rw [if_neg hg]
    simp only [if_neg hc, streamWhile, e1, e2, e3]
  · decide

/-- C23, amended: for `0 ≤ x < _width`, `0 ≤ y < _height` and a 16-bit `h ≥ 0`
(on a surface no larger than the 8-bit coordinate range, as both orientations
are) `ST7735_drawFastVLine` streams exactly `min(h, _height - y)` colours, at
most `_height - y`, so the run stays on the surface; for `h = 0` it streams none. -/
theorem drawFastVLine_clips (s : State) (x y h color : Nat)
    (hx : x < s._width) (hy : y < s._height) (hh : h ≤ 32767)
    (hW : s._width ≤ 256) (hH : s._height ≤ 256) :
    ST7735_drawFastVLine s x y h color
      = Op.setAddrWindow x y x (u8 ((y : Int) + (min h (s._height - y) : Nat) - 1)) ::
          Op.LCD_DC1 ::
          (List.replicate (min h (s._height - y))
            [Op.senddata (color >>> 8), Op.senddata (color &&& 0xFF)]).flatten
    ∧ min h (s._height - y) ≤ s._height - y := by
  refine ⟨?_, Nat.min_le_right _ _⟩
  unfold ST7735_drawFastVLine
  have hg : ¬ ((x : Int) ≥ s._width ∨ (y : Int) ≥ s._height) := by omega
  rw [if_neg hg]
  have a1 : u8 (x : Int) = x := by unfold u8; omega
  have a2 : u8 (y : Int) = y := by unfold u8; omega
  simp only [streamWhile, a1, a2]
  by_cases c : (y : Int) + h - 1 ≥ s._height
  · have hm : min h (s._height - y) = s._height - y := by omega
    simp only [if_pos c, hm]
    have b0 : i16 ((s._height : Int) - y) = ((s._height - y : Nat) : Int) := by
      unfold i16; omega
    have b2 : u16 (i16 ((s._height : Int) - y)) = s._height - y := by
      unfold u16 i16; omega
    rw [b2, b0]; rfl
  · have hm : min h (s._height - y) = h := by omega
    simp only [if_neg c, hm]
    have b2 : u16 (h : Int) = h := by unfold u16; omega
    rw [b2]; rfl

/-- Witness of C23 amended: `drawFastVLine(0, 150, 20, c)` on the initial surface
is clipped to the 10 rows 150..159. -/
theorem drawFastVLine_clips_witness :
    (0 < initState._width ∧ 150 < initState._height ∧ 20 ≤ 32767 ∧
      initState._width ≤ 256 ∧ initState._height ≤ 256) ∧
    (ST7735_drawFastVLine initState (0 : Nat) (150 : Nat) (20 : Nat) 0xF800
      = Op.setAddrWindow 0 150 0 159 :: Op.LCD_DC1 ::
          (List.replicate 10 [Op.senddata 0xF8, Op.senddata 0x00]).flatten
    ∧ 10 ≤ initState._height - 150) :=
  ⟨by decide, drawFastVLine_clips initState 0 150 20 0xF800 (by decide) (by decide) (by decide)
    (by decide) (by decide)⟩

/-- C24: for every value of the opcode constants, `commandList` decodes each of
the five built-in tables without reading past its end and leaves no byte
unread, issuing exactly 18, 15, 2, 2 and 4 commands for `Bcmd`, `Rcmd1`,
`Rcmd2green`, `Rcmd2red` and `Rcmd3`. -/
theorem init_tables_well_formed (K : Header) :
    (commandList (Bcmd K)).map (fun r => (r.1.countP Op.isCmd, r.2)) = some (18, [])
    ∧ (commandList (Rcmd1 K)).map (fun r => (r.1.countP Op.isCmd, r.2)) = some (15, [])
    ∧ (commandList (Rcmd2green K)).map (fun r => (r.1.countP Op.isCmd, r.2)) = some (2, [])
    ∧ (commandList (Rcmd2red K)).map (fun r => (r.1.countP Op.isCmd, r.2)) = some (2, [])
    ∧ (commandList (Rcmd3 K)).map (fun r => (r.1.countP Op.isCmd, r.2)) = some (4, []) := by
  refine ⟨?_, ?_, ?_, ?_, ?_⟩ <;> rfl

end ST7735
